import Mathlib

/-!
# Verification of the agent goal-execution engine and guarded SQL pipeline

This file contains a shallow embedding, over `List Char`, of the core of the
backend: the SQL Guard (`app/sql_guard.py`), the NL-to-SQL generation pipeline
(`app/nl_to_sql.py`, `cache/cache.py`), and the goal execution state machine
(`app/agent_service.py`).  Python strings are modelled as `List Char`
(ASCII-level semantics for `lower`, `upper`, `strip` and the `re` patterns the
code uses), Python `set` values as lists with membership semantics, raised
exceptions as `Except`, and the external collaborators (text-generation
backend, retrieval service, database) as explicit environments.

The theorems at the end of the file settle the frozen claims C1..C10.
-/

set_option maxRecDepth 10000

deriving instance DecidableEq for Except

/-- Python strings are modelled as lists of characters. -/
abbrev Str := List Char

/-- Convert a Lean string literal to the `Str` model. -/
def str (s : String) : Str := s.toList

/-- The whitespace characters of Python's `str.strip` / regex `\s` (ASCII). -/
def pyIsSpace (c : Char) : Bool :=
  c = ' ' || c = '\t' || c = '\n' || c = '\x0d' || c = '\x0b' || c = '\x0c'

/-- A regex word character `\w` = `[a-zA-Z0-9_]` (ASCII). -/
def isWordChar (c : Char) : Bool :=
  c.isAlpha || c.isDigit || c = '_'

/-- The ASCII upper/lower case letter pairs. -/
def casePairs : List (Char × Char) :=
  [('A', 'a'), ('B', 'b'), ('C', 'c'), ('D', 'd'), ('E', 'e'), ('F', 'f'),
   ('G', 'g'), ('H', 'h'), ('I', 'i'), ('J', 'j'), ('K', 'k'), ('L', 'l'),
   ('M', 'm'), ('N', 'n'), ('O', 'o'), ('P', 'p'), ('Q', 'q'), ('R', 'r'),
   ('S', 's'), ('T', 't'), ('U', 'u'), ('V', 'v'), ('W', 'w'), ('X', 'x'),
   ('Y', 'y'), ('Z', 'z')]

/-- ASCII lower-casing of one character, as Python's `str.lower` acts on
ASCII. -/
def pyLowerChar (c : Char) : Char :=
  match casePairs.find? (fun kv => kv.1 = c) with
  | some kv => kv.2
  | none => c

/-- ASCII upper-casing of one character, as Python's `str.upper` acts on
ASCII. -/
def pyUpperChar (c : Char) : Char :=
  match casePairs.find? (fun kv => kv.2 = c) with
  | some kv => kv.1
  | none => c

/-- `s.lower()` (ASCII model). -/
def pyLower (s : Str) : Str := s.map pyLowerChar

/-- `s.upper()` (ASCII model). -/
def pyUpper (s : Str) : Str := s.map pyUpperChar

/-- `s.lstrip()`. -/
def pyLstrip (s : Str) : Str := s.dropWhile pyIsSpace

/-- `s.rstrip()`. -/
def pyRstrip (s : Str) : Str := s.rdropWhile pyIsSpace

/-- `s.strip()`. -/
def pyStrip (s : Str) : Str := pyRstrip (pyLstrip s)

/-- `s.rstrip(";")`: remove all trailing semicolon characters. -/
def pyRstripSemi (s : Str) : Str := s.rdropWhile (fun c => c = ';')

/-- Number of positions of `hay` at which `pat` occurs as a substring
(for nonempty `pat` this is the number of substring occurrences). -/
def countSubstr (hay pat : Str) : Nat :=
  match hay with
  | [] => 0
  | c :: t => (if pat.isPrefixOf (c :: t) then 1 else 0) + countSubstr t pat

/-- Tail of `wordRuns`: `cur` is the reversed run of word characters read so
far. -/
def wordRunsAux (cur : Str) (s : Str) : List Str :=
  match s with
  | [] => if cur = [] then [] else [cur.reverse]
  | c :: t =>
    if isWordChar c then wordRunsAux (c :: cur) t
    else if cur = [] then wordRunsAux [] t else cur.reverse :: wordRunsAux [] t

/-- Maximal runs of word characters of a string, in order.  Tokenisation
underlying the regex `\b[a-zA-Z_][a-zA-Z0-9_]*\b`. -/
def wordRuns (s : Str) : List Str := wordRunsAux [] s

/-- `re.findall(r'\b[a-zA-Z_][a-zA-Z0-9_]*\b', s)`: the maximal word-character
runs whose first character is a letter or underscore. -/
def findIdentifiers (s : Str) : List Str :=
  (wordRuns s).filter (fun r =>
    match r with
    | [] => false
    | c :: _ => c.isAlpha || c = '_')

/-- Whether the string tail after the matched pattern starts a word boundary. -/
def boundaryAfter (rest : Str) : Bool :=
  match rest with
  | [] => true
  | d :: _ => !isWordChar d

/-- Scanner for `re.search(r'\b' + pat + r'\b', hay)` where `pat` consists of
word characters.  `prevWord` records whether the previous character of `hay`
was a word character. -/
def wordOccursFrom (pat : Str) (prevWord : Bool) (hay : Str) : Bool :=
  match hay with
  | [] => false
  | c :: t =>
    (!prevWord && pat.isPrefixOf (c :: t) && boundaryAfter ((c :: t).drop pat.length))
      || wordOccursFrom pat (isWordChar c) t

/-- `re.search(r'\b' + pat + r'\b', hay) is not None` for a word-character
pattern `pat`. -/
def wordOccurs (hay pat : Str) : Bool := wordOccursFrom pat false hay

/-- Python's substring containment `pat in hay`. -/
def containsSubstr (hay pat : Str) : Bool :=
  match hay with
  | [] => pat.isEmpty
  | c :: t => pat.isPrefixOf (c :: t) || containsSubstr t pat

/-- Index of the last occurrence of `pat` in `hay` (`hay.rfind(pat)` when it
returns a non-negative index). -/
def rfindSubstr (hay pat : Str) : Option Nat :=
  match hay with
  | [] => none
  | c :: t =>
    match rfindSubstr t pat with
    | some j => some (j + 1)
    | none => if pat.isPrefixOf (c :: t) then some 0 else none

/-- Tail of `pySplitWs`: `cur` is the reversed field read so far. -/
def pySplitWsAux (cur : Str) (s : Str) : List Str :=
  match s with
  | [] => if cur = [] then [] else [cur.reverse]
  | c :: t =>
    if pyIsSpace c then
      if cur = [] then pySplitWsAux [] t else cur.reverse :: pySplitWsAux [] t
    else pySplitWsAux (c :: cur) t

/-- Python `str.split()` with no argument: split on whitespace runs, dropping
empty fields. -/
def pySplitWs (s : Str) : List Str := pySplitWsAux [] s

/-- Tail of `pySplitLines`: `cur` is the reversed current line. -/
def pySplitLinesAux (cur : Str) (s : Str) : List Str :=
  match s with
  | [] => if cur = [] then [] else [cur.reverse]
  | c :: t =>
    if c = '\n' || c = '\x0d' then cur.reverse :: pySplitLinesAux [] t
    else pySplitLinesAux (c :: cur) t

/-- Python `str.splitlines()` restricted to the line separators `\n` and `\r`
(splitting on each of them individually; the resulting extra empty lines from
a `\r\n` pair are discarded by every consumer in the code). -/
def pySplitLines (s : Str) : List Str :=
  match s with
  | [] => []
  | _ :: _ => pySplitLinesAux [] s

/-! ## SQL Guard (`app/sql_guard.py`) -/

/-- The exception type of `SQLGuardError`, refined by which check raised it. -/
inductive GuardError
  | notSelect
  | forbiddenKeyword (kw : Str)
  | disallowedIdentifiers (ids : List Str)
  | suspiciousPattern (idx : Nat)
  | riskyFunction (fn : Str)
  | literalDatasetFilter
deriving DecidableEq

namespace SQLGuard

/-- `SQLGuard.FORBIDDEN_KEYWORDS` (write operations). -/
def FORBIDDEN_KEYWORDS : List Str :=
  [str "INSERT", str "UPDATE", str "DELETE", str "DROP", str "CREATE",
   str "TRUNCATE", str "ALTER", str "GRANT", str "REVOKE", str "PRAGMA",
   str "VACUUM", str "ANALYZE", str "REINDEX"]

/-- `SQLGuard.ALLOWED_KEYWORDS` (read-only operations). -/
def ALLOWED_KEYWORDS : List Str :=
  [str "SELECT", str "FROM", str "WHERE", str "GROUP", str "BY", str "ORDER",
   str "LIMIT", str "OFFSET", str "JOIN", str "INNER", str "LEFT", str "RIGHT",
   str "FULL", str "OUTER", str "ON", str "USING", str "UNION", str "INTERSECT",
   str "EXCEPT", str "CASE", str "WHEN", str "THEN", str "ELSE", str "END",
   str "AND", str "OR", str "NOT", str "IN", str "EXISTS", str "BETWEEN",
   str "LIKE", str "IS", str "NULL", str "DISTINCT", str "AS", str "WITH",
   str "RECURSIVE", str "HAVING", str "CROSS"]

/-- `SQLGuard.ALLOWED_FUNCTIONS` (aggregate/date/string functions). -/
def ALLOWED_FUNCTIONS : List Str :=
  [str "SUM", str "COUNT", str "AVG", str "MIN", str "MAX", str "STDDEV",
   str "VARIANCE", str "DATE", str "EXTRACT", str "CURRENT_DATE",
   str "CURRENT_TIMESTAMP", str "NOW", str "UPPER", str "LOWER", str "CONCAT",
   str "SUBSTRING", str "LENGTH", str "TRIM", str "ROUND", str "ABS",
   str "CEIL", str "FLOOR", str "COALESCE", str "NULLIF", str "CAST",
   str "TO_CHAR", str "TO_DATE", str "INTERVAL"]

/-- `SQLGuard.EXTRA_ALLOWED_IDENTIFIERS`: identifiers allowed even when not in
the schema. -/
def EXTRA_ALLOWED_IDENTIFIERS : List Str :=
  [str "day", str "date", str "sale_date", str "order_date", str "timestamp",
   str "total_sales"]

end SQLGuard

/-- The guard state: the allowlists handed to `SQLGuard.__init__`
(lower-cased sets, as built by `set_active_plugin`). -/
structure SQLGuard where
  allowed_tables : List Str
  allowed_columns : List Str

namespace SQLGuard

/-- Set difference on identifier lists (`set - set` in Python). -/
def listDiff (l r : List Str) : List Str := l.filter (fun x => ¬ x ∈ r)

/-- State machine for the captures of
`re.findall(r'\bas\s+([a-zA-Z_][a-zA-Z0-9_]*)', sql, re.IGNORECASE)`.
States: 0 = scanning for a word-bounded `a`; 1 = expecting `s`; 2 = expecting
the first whitespace; 3 = inside `\s*`, expecting the identifier start;
4 = consuming the captured identifier (reversed in `acc`).  On a failed
partial match the scan resumes exactly where the regex engine would next
find a candidate start. -/
def findAsAliasesAux (st : Nat) (acc : Str) (prevWord : Bool) (s : Str) :
    List Str :=
  match st, s with
  | 0, [] => []
  | 0, c :: t =>
    if !prevWord && (pyLowerChar c = 'a') then findAsAliasesAux 1 [] false t
    else findAsAliasesAux 0 [] (isWordChar c) t
  | 1, [] => []
  | 1, c :: t =>
    if pyLowerChar c = 's' then findAsAliasesAux 2 [] false t
    else findAsAliasesAux 0 [] (isWordChar c) t
  | 2, [] => []
  | 2, c :: t =>
    if pyIsSpace c then findAsAliasesAux 3 [] false t
    else findAsAliasesAux 0 [] (isWordChar c) t
  | 3, [] => []
  | 3, c :: t =>
    if pyIsSpace c then findAsAliasesAux 3 [] false t
    else if c.isAlpha || c = '_' then findAsAliasesAux 4 [c] false t
    else findAsAliasesAux 0 [] (isWordChar c) t
  | 4, [] => [acc.reverse]
  | 4, c :: t =>
    if isWordChar c then findAsAliasesAux 4 (c :: acc) false t
    else acc.reverse :: findAsAliasesAux 0 [] (isWordChar c) t
  | _ + 5, _ => []

/-- `re.findall(r'\bas\s+([a-zA-Z_][a-zA-Z0-9_]*)', sql, re.IGNORECASE)`. -/
def findAsAliases (s : Str) : List Str := findAsAliasesAux 0 [] false s

/-- State machine for the captures of
`re.findall(r'\)\s+([a-zA-Z_][a-zA-Z0-9_]*)', sql)` (function aliases without
`AS`).  States: 0 = scanning for `)`; 1 = expecting the first whitespace;
2 = inside `\s*`, expecting the identifier start; 3 = consuming the captured
identifier. -/
def findParenAliasesAux (st : Nat) (acc : Str) (s : Str) : List Str :=
  match st, s with
  | 0, [] => []
  | 0, c :: t =>
    if c = ')' then findParenAliasesAux 1 [] t
    else findParenAliasesAux 0 [] t
  | 1, [] => []
  | 1, c :: t =>
    if pyIsSpace c then findParenAliasesAux 2 [] t
    else if c = ')' then findParenAliasesAux 1 [] t
    else findParenAliasesAux 0 [] t
  | 2, [] => []
  | 2, c :: t =>
    if pyIsSpace c then findParenAliasesAux 2 [] t
    else if c.isAlpha || c = '_' then findParenAliasesAux 3 [c] t
    else if c = ')' then findParenAliasesAux 1 [] t
    else findParenAliasesAux 0 [] t
  | 3, [] => [acc.reverse]
  | 3, c :: t =>
    if isWordChar c then findParenAliasesAux 3 (c :: acc) t
    else if c = ')' then acc.reverse :: findParenAliasesAux 1 [] t
    else acc.reverse :: findParenAliasesAux 0 [] t
  | _ + 4, _ => []

/-- `re.findall(r'\)\s+([a-zA-Z_][a-zA-Z0-9_]*)', sql)`. -/
def findParenAliases (s : Str) : List Str := findParenAliasesAux 0 [] s

/-- The lower-cased keyword set removed from the identifier candidates:
`ALLOWED_KEYWORDS | FORBIDDEN_KEYWORDS | ALLOWED_FUNCTIONS`. -/
def keywordSet : List Str :=
  (ALLOWED_KEYWORDS ++ FORBIDDEN_KEYWORDS ++ ALLOWED_FUNCTIONS).map pyLower

/-- The literal set subtracted a second time in `_check_schema_allowlist`. -/
def smallWordSet : List Str :=
  [str "as", str "on", str "and", str "or", str "not", str "in", str "is",
   str "null"]

/-- The identifiers of `sql` that remain after removing aliases and SQL
keywords — the set whose allowlist membership `_check_schema_allowlist`
enforces.  (`identifiers` minus the `AS`/function aliases minus keywords.) -/
def remainingIdentifiers (sql : Str) : List Str :=
  let identifiers := (findIdentifiers (pyLower sql)).dedup
  let aliases := (findAsAliases sql ++ findParenAliases sql).map pyLower
  let identifiers := listDiff identifiers aliases
  listDiff identifiers keywordSet

/-- `SQLGuard._check_schema_allowlist`. -/
def check_schema_allowlist (g : SQLGuard) (sql : Str) : Except GuardError Unit :=
  let identifiers := remainingIdentifiers sql
  let disallowed := listDiff identifiers g.allowed_tables
  let disallowed := listDiff disallowed g.allowed_columns
  let disallowed := listDiff disallowed smallWordSet
  let disallowed := listDiff disallowed EXTRA_ALLOWED_IDENTIFIERS
  if disallowed = [] then .ok ()
  else .error (.disallowedIdentifiers disallowed)

/-- `SQLGuard._check_forbidden_keywords`: word-bounded, on the upper-cased
statement. -/
def check_forbidden_keywords (sql : Str) : Except GuardError Unit :=
  let sql_upper := pyUpper sql
  match FORBIDDEN_KEYWORDS.find? (fun kw => wordOccurs sql_upper kw) with
  | some kw => .error (.forbiddenKeyword kw)
  | none => .ok ()

/-- Scanner for `re.search(r"--\s*$", sql)`: `--` followed only by whitespace
until the end of the string. -/
def hasTrailingComment (s : Str) : Bool :=
  match s with
  | [] => false
  | c :: t =>
    (c = '-' && (match t with
      | c2 :: t2 => c2 = '-' && (t2.dropWhile pyIsSpace).isEmpty
      | [] => false))
    || hasTrailingComment t

/-- After an opening `/*`, whether `*/` occurs before any newline (the regex
`.` does not match `\n`). -/
def findCloseNoNewline (s : Str) : Bool :=
  match s with
  | '*' :: '/' :: _ => true
  | c :: t => if c = '\n' then false else findCloseNoNewline t
  | [] => false

/-- Scanner for `re.search(r"/\*.*\*/", sql)`. -/
def hasBlockComment (s : Str) : Bool :=
  match s with
  | [] => false
  | c :: t =>
    (c = '/' && (match t with
      | '*' :: t2 => findCloseNoNewline t2
      | _ => false))
    || hasBlockComment t

/-- Scanner for `re.search(r";\s*\w+", sql)`: statement chaining. -/
def hasStatementChain (s : Str) : Bool :=
  match s with
  | [] => false
  | c :: t =>
    (c = ';' && (match t.dropWhile pyIsSpace with
      | d :: _ => isWordChar d
      | [] => false))
    || hasStatementChain t

/-- Scanner for `re.search(r"'\s*OR\s*'", sql, re.IGNORECASE)`. -/
def hasOrInjection (s : Str) : Bool :=
  match s with
  | [] => false
  | c :: t =>
    (c = '\'' && (match t.dropWhile pyIsSpace with
      | o :: r1 =>
        pyLowerChar o = 'o' && (match r1 with
          | r :: r2 =>
            pyLowerChar r = 'r' && (match r2.dropWhile pyIsSpace with
              | q :: _ => q = '\''
              | [] => false)
          | [] => false)
      | [] => false))
    || hasOrInjection t

/-- Scanner for `re.search(r"'\s*;\s*DROP", sql, re.IGNORECASE)`. -/
def hasDropInjection (s : Str) : Bool :=
  match s with
  | [] => false
  | c :: t =>
    (c = '\'' && (match t.dropWhile pyIsSpace with
      | smc :: r1 =>
        smc = ';' && (match r1.dropWhile pyIsSpace with
          | d1 :: d2 :: d3 :: d4 :: _ =>
            pyLowerChar d1 = 'd' && pyLowerChar d2 = 'r' &&
              pyLowerChar d3 = 'o' && pyLowerChar d4 = 'p'
          | _ => false)
      | [] => false))
    || hasDropInjection t

/-- `SQLGuard._check_injection_patterns`: the five suspicious patterns, in
order. -/
def check_injection_patterns (sql : Str) : Except GuardError Unit :=
  if hasTrailingComment sql then .error (.suspiciousPattern 0)
  else if hasBlockComment sql then .error (.suspiciousPattern 1)
  else if hasStatementChain sql then .error (.suspiciousPattern 2)
  else if hasOrInjection sql then .error (.suspiciousPattern 3)
  else if hasDropInjection sql then .error (.suspiciousPattern 4)
  else .ok ()

/-- The blocklist of `SQLGuard._check_risky_functions`. -/
def riskyFunctions : List Str :=
  [str "pg_sleep", str "pg_stat_activity", str "pg_catalog", str "set_config"]

/-- `SQLGuard._check_risky_functions`: word-bounded, case-insensitive. -/
def check_risky_functions (sql : Str) : Except GuardError Unit :=
  match riskyFunctions.find? (fun fn => wordOccurs (pyLower sql) fn) with
  | some fn => .error (.riskyFunction fn)
  | none => .ok ()

/-- `SQLGuard.validate`: strip, require a leading `SELECT`, then run the four
remaining checks in order.  Returns `.ok ()` where the Python returns `True`
and `.error e` where it raises `SQLGuardError`. -/
def validate (g : SQLGuard) (sql0 : Str) : Except GuardError Unit :=
  if ¬ (str "SELECT").isPrefixOf (pyLstrip (pyUpper (pyStrip sql0))) then
    .error .notSelect
  else do
    check_forbidden_keywords (pyStrip sql0)
    check_schema_allowlist g (pyStrip sql0)
    check_injection_patterns (pyStrip sql0)
    check_risky_functions (pyStrip sql0)

end SQLGuard

namespace SQLGuard

/-- Scanner for `re.search(rf"\b{p}\s*=\s*['\"]", sql, re.IGNORECASE)` over the
lower-cased statement: a word-bounded occurrence of the (lower-case) parameter
name followed by `\s*`, `=`, `\s*` and a quote character. -/
def literalEqFrom (p : Str) (prevWord : Bool) (low : Str) : Bool :=
  match low with
  | [] => false
  | c :: t =>
    (!prevWord && p.isPrefixOf (c :: t) &&
      (match ((c :: t).drop p.length).dropWhile pyIsSpace with
       | '=' :: r =>
         (match r.dropWhile pyIsSpace with
          | '\'' :: _ => true
          | '"' :: _ => true
          | _ => false)
       | _ => false))
      || literalEqFrom p (isWordChar c) t

/-- Whether `sql` hard-codes a literal (quoted) equality on the scoping
parameter. -/
def hasLiteralParamEq (sql p : Str) : Bool :=
  literalEqFrom (pyLower p) false (pyLower sql)

/-- Parse a regex identifier `[a-zA-Z_][a-zA-Z0-9_]*` (maximal) at the head of
`l`, returning the capture and the remaining characters. -/
def parseIdent (l : Str) : Option (Str × Str) :=
  match l with
  | [] => none
  | c :: t =>
    if c.isAlpha || c = '_' then
      some (c :: t.takeWhile isWordChar, t.dropWhile isWordChar)
    else none

/-- After the literal `from`: require at least one whitespace character, then
parse the table identifier (capture group 1) and return it with the remaining
characters. -/
def parseFromTail (r1 : Str) : Option (Str × Str) :=
  match r1 with
  | c :: t => if pyIsSpace c then parseIdent (t.dropWhile pyIsSpace) else none
  | [] => none

/-- The optional group `(\s+as\s+([a-zA-Z_][a-zA-Z0-9_]*))?` after the table
identifier: `some` capture 3 when the whole group matches, `none` otherwise. -/
def parseAsAlias (r2 : Str) : Option Str :=
  match r2 with
  | c2 :: t2 =>
    if pyIsSpace c2 then
      if (str "as").isPrefixOf (pyLower (t2.dropWhile pyIsSpace)) then
        match (t2.dropWhile pyIsSpace).drop 2 with
        | c3 :: t3 =>
          if pyIsSpace c3 then
            match parseIdent (t3.dropWhile pyIsSpace) with
            | some (a, _) => some a
            | none => none
          else none
        | [] => none
      else none
    else none
  | [] => none

/-- Try to match
`from\s+([a-zA-Z_][a-zA-Z0-9_]*)(\s+as\s+([a-zA-Z_][a-zA-Z0-9_]*))?`
(case-insensitive) at the head of `l` (original casing preserved in the
captures).  Returns `(group 1, optional group 3)`. -/
def parseFromAt (l : Str) : Option (Str × Option Str) :=
  if (str "from").isPrefixOf (pyLower l) then
    match parseFromTail (l.drop 4) with
    | some (tbl, r2) => some (tbl, parseAsAlias r2)
    | none => none
  else none

/-- `re.search` for the `from` clause pattern: the first position of `sql`
where the full pattern matches. -/
def findFromClause (sql : Str) : Option (Str × Option Str) :=
  match sql with
  | [] => none
  | _ :: t =>
    match parseFromAt sql with
    | some r => some r
    | none => findFromClause t

/-- The alias chosen by `enforce_dataset_filter`:
`from_match.group(3) or from_match.group(1)` when the `from` clause matched. -/
def enfAlias (sql : Str) : Option Str :=
  match findFromClause sql with
  | some (_, some a) => some a
  | some (tbl, none) => some tbl
  | none => none

/-- The predicate `enforce_dataset_filter` injects:
`<alias>.<param> = :<param>`, or unqualified if no alias was found. -/
def enfPredicate (sql dataset_param : Str) : Str :=
  match enfAlias sql with
  | some a => a ++ ('.' :: dataset_param) ++ str " = :" ++ dataset_param
  | none => dataset_param ++ str " = :" ++ dataset_param

/-- The part of `sql` before the trailing `LIMIT` (right-stripped), as split by
`lower_sql.rfind("limit")`. -/
def enfBefore (sql : Str) : Str :=
  match rfindSubstr (pyLower sql) (str "limit") with
  | some i => pyRstrip (sql.take i)
  | none => sql

/-- The part of `sql` from the trailing `LIMIT` onwards. -/
def enfAfter (sql : Str) : Str :=
  match rfindSubstr (pyLower sql) (str "limit") with
  | some i => sql.drop i
  | none => []

/-- The `WHERE`-presence test of `enforce_dataset_filter`:
`" where " in lower_sql or lower_sql.startswith("where ")`. -/
def enfHasWhere (sql : Str) : Bool :=
  containsSubstr (pyLower sql) (str " where ") || (str "where ").isPrefixOf (pyLower sql)

/-- `SQLGuard.enforce_dataset_filter`: fail on a literal scoping equality;
return `sql` unchanged if the parameter already occurs; otherwise inject the
scoping predicate before a trailing `LIMIT`, joined by `AND` when a `WHERE`
clause is detected and by a new `WHERE` otherwise. -/
def enforce_dataset_filter (sql : Str) (dataset_param : Str) :
    Except GuardError Str :=
  if hasLiteralParamEq sql dataset_param then .error .literalDatasetFilter
  else if wordOccurs (pyLower sql) (pyLower dataset_param) then .ok sql
  else .ok (pyStrip (enfBefore sql ++
    (if enfHasWhere sql then str " AND " else str " WHERE ") ++
    enfPredicate sql dataset_param ++ ' ' :: enfAfter sql))

end SQLGuard

/-! ## Risk assessor (`agent_service._is_risky_sql`) -/

/-- Scanner for `re.search(r"\bselect\s+\*\s+from\b", low)`. -/
def selectStarFromAt (low : Str) : Bool :=
  if (str "select").isPrefixOf low then
    match low.drop 6 with
    | c :: t =>
      if pyIsSpace c then
        match t.dropWhile pyIsSpace with
        | '*' :: r1 =>
          (match r1 with
           | c2 :: t2 =>
             pyIsSpace c2 &&
               ((str "from").isPrefixOf (t2.dropWhile pyIsSpace) &&
                 boundaryAfter ((t2.dropWhile pyIsSpace).drop 4))
           | [] => false)
        | _ => false
      else false
    | [] => false
  else false

/-- Word-boundary-aware search for `\bselect\s+\*\s+from\b`. -/
def hasSelectStarFrom (prevWord : Bool) (low : Str) : Bool :=
  match low with
  | [] => false
  | c :: t => (!prevWord && selectStarFromAt (c :: t)) || hasSelectStarFrom (isWordChar c) t

/-- `agent_service._is_risky_sql`: empty, or missing ` limit `, or missing both
` where ` and ` group by ` (checked on the space-padded lower-cased statement),
or a `select * from` pattern. -/
def is_risky_sql (sql : Str) : Bool :=
  if sql = [] then true
  else if ¬ containsSubstr (' ' :: pyLower sql ++ [' ']) (str " limit ") then true
  else if ¬ containsSubstr (' ' :: pyLower sql ++ [' ']) (str " where ") ∧
      ¬ containsSubstr (' ' :: pyLower sql ++ [' ']) (str " group by ") then true
  else if hasSelectStarFrom false (pyLower sql) then true
  else false

/-! ## NL-to-SQL pipeline (`app/nl_to_sql.py` and `cache/cache.py`) -/

/-- The off-topic markers of `classify_intent`. -/
def unsupportedKeywords : List Str :=
  [str "joke", str "who are you", str "lyrics", str "story",
   str "explain plugin", str "weather"]

/-- `nl_to_sql.classify_intent`: empty input needs clarification, off-topic
markers are unsupported, fewer than three whitespace-separated words need
clarification, anything else is an analytics query. -/
def classify_intent (question : Str) : Str :=
  let q := pyLower question
  if pyStrip q = [] then str "needs_clarification"
  else if unsupportedKeywords.any (fun k => containsSubstr q k) then str "unsupported"
  else if (pySplitWs q).length < 3 then str "needs_clarification"
  else str "analytics_query"

/-- `nl_to_sql.normalize_sql`: strip whitespace and trailing semicolons and
append a default `LIMIT` when none is present. -/
def normalize_sql (sql : Str) (default_limit : Nat) : Str :=
  let cleaned := pyRstripSemi (pyStrip sql)
  if ¬ containsSubstr (pyLower cleaned) (str "limit") then
    cleaned ++ str " LIMIT " ++ str (toString default_limit)
  else cleaned

/-- Try to match
`DATE\('(\d{4}-\d{2}-\d{2})'\s*-\s*INTERVAL\s*'(\d+\s+day[s]?)'\)`
(case-insensitive) at the head of `l`; on success return the replacement
`(DATE '\1' - INTERVAL '\2')` together with the rest of the input. -/
def fixDateTryMatch (l : Str) : Option (Str × Str) :=
  if (str "date").isPrefixOf (pyLower l) then
    match l.drop 4 with
    | '(' :: '\'' :: r =>
      match r with
      | a1 :: a2 :: a3 :: a4 :: h1 :: b1 :: b2 :: h2 :: c1 :: c2 :: r2 =>
        if a1.isDigit && a2.isDigit && a3.isDigit && a4.isDigit && h1 = '-' &&
            b1.isDigit && b2.isDigit && h2 = '-' && c1.isDigit && c2.isDigit then
          let g1 : Str := [a1, a2, a3, a4, '-', b1, b2, '-', c1, c2]
          match r2 with
          | '\'' :: r3 =>
            match r3.dropWhile pyIsSpace with
            | '-' :: r5 =>
              let r6 := r5.dropWhile pyIsSpace
              if (str "interval").isPrefixOf (pyLower r6) then
                match (r6.drop 8).dropWhile pyIsSpace with
                | '\'' :: r9 =>
                  let digits := r9.takeWhile Char.isDigit
                  let r10 := r9.dropWhile Char.isDigit
                  let ws := r10.takeWhile pyIsSpace
                  let r11 := r10.dropWhile pyIsSpace
                  if digits = [] || ws = [] then none
                  else if (str "day").isPrefixOf (pyLower r11) then
                    let dayTxt := r11.take 3
                    match r11.drop 3 with
                    | s1 :: '\'' :: ')' :: rest =>
                      if pyLowerChar s1 = 's' then
                        some (str "(DATE '" ++ g1 ++ str "' - INTERVAL '" ++
                          digits ++ ws ++ dayTxt ++ [s1] ++ str "')", rest)
                      else none
                    | '\'' :: ')' :: rest =>
                      some (str "(DATE '" ++ g1 ++ str "' - INTERVAL '" ++
                        digits ++ ws ++ dayTxt ++ str "')", rest)
                    | _ => none
                  else none
                | _ => none
              else none
            | _ => none
          | _ => none
        else none
      | _ => none
    | _ => none
  else none

/-- Fuelled scanner of `re.sub` for the malformed date-interval pattern; each
step either rewrites a match or copies one character, so `fuel = l.length`
suffices. -/
def fixDateAux (fuel : Nat) (l : Str) : Str :=
  match fuel with
  | 0 => l
  | fuel + 1 =>
    match l with
    | [] => []
    | c :: t =>
      match fixDateTryMatch (c :: t) with
      | some (rep, rest) => rep ++ fixDateAux fuel rest
      | none => c :: fixDateAux fuel t

/-- `nl_to_sql.fix_date_literal_intervals`: rewrite
`DATE('YYYY-MM-DD' - INTERVAL 'n day[s]')` to
`(DATE 'YYYY-MM-DD' - INTERVAL 'n day[s]')`. -/
def fix_date_literal_intervals (sql : Str) : Str := fixDateAux sql.length sql

/-- `nl_to_sql.clamp_date_range`: when a maximum range is configured and the
query does not mention the time column, append a clamping predicate (before a
trailing `LIMIT` if present). -/
def clamp_date_range (sql : Str) (time_column : Option Str) (max_days : Option Nat) : Str :=
  match time_column, max_days with
  | some tc, some md =>
    if tc = [] || md = 0 then sql
    else if containsSubstr (pyLower sql) (pyLower tc) then sql
    else
      let lower_sql := pyLower sql
      let clamp_clause := tc ++ str " >= CURRENT_DATE - INTERVAL '" ++
        str (toString md) ++ str " days'"
      match rfindSubstr lower_sql (str "limit") with
      | some i =>
        let before := pyRstrip (sql.take i)
        let after := sql.drop i
        if containsSubstr (pyLower before) (str "where") then
          before ++ str " AND " ++ clamp_clause ++ ' ' :: after
        else before ++ str " WHERE " ++ clamp_clause ++ ' ' :: after
      | none =>
        if containsSubstr lower_sql (str "where") then
          sql ++ str " AND " ++ clamp_clause
        else sql ++ str " WHERE " ++ clamp_clause
  | _, _ => sql

/-- The tenant/plugin configuration consumed by `generate_sql` (the parts of
`PluginConfig` the pipeline reads; `maxDateRangeDays` folds the absent-policy
case into `none`). -/
structure Plugin where
  name : Str
  allowedTables : List Str
  allowedColumns : List Str
  forbiddenTopics : List Str
  primaryTimeColumn : Option Str
  maxDateRangeDays : Option Nat

/-- `PluginConfig.validate_question`: forbidden-topic substring match on the
lower-cased question. -/
def Plugin.validate_question (p : Plugin) (question : Str) : Bool × Str :=
  match p.forbiddenTopics.find? (fun topic => containsSubstr (pyLower question) (pyLower topic)) with
  | some topic => (false, str "Question contains forbidden topic: " ++ topic)
  | none => (true, [])

/-- `cache.normalize_question`: lower-case, strip, collapse whitespace runs to
single spaces. -/
def normalize_question (text : Str) : Str :=
  (str " ").intercalate (pySplitWs (pyStrip (pyLower text)))

/-- The cache key of `generate_sql` (`stable_hash` is modelled as the identity
on the hashed key object; all distinct key objects give distinct keys). -/
structure CacheKey where
  plugin : Str
  dataset_id : Str
  dataset_version : Nat
  question : Str
  config_hash : Str
  prompt_version : Str
  model : Str
deriving DecidableEq

/-- The value cached for a successful generation. -/
structure CacheEntry where
  sql : Str
  answer_type : Str
  assumptions : List Str
  model_name : Option Str
  chart_hint : Str
  summary : Str
deriving DecidableEq

/-- The in-memory cache store: key, expiry time, value (`_MemoryCache.store`). -/
abbrev SqlCache := List (CacheKey × Nat × CacheEntry)

/-- `cache_get` (with `_MemoryCache.get`): `none` on a miss; an expired entry
is popped from the store and reported as a miss. -/
def cache_get (now : Nat) (c : SqlCache) (k : CacheKey) : Option CacheEntry × SqlCache :=
  match c.find? (fun kv => kv.1 = k) with
  | none => (none, c)
  | some kv =>
    if kv.2.1 < now then (none, c.filter (fun kv2 => ¬ kv2.1 = k))
    else (some kv.2.2, c)

/-- `cache_set` (with `_MemoryCache.set`): dictionary assignment of
`(now + ttl, value)` under the key. -/
def cache_set (now : Nat) (c : SqlCache) (k : CacheKey) (v : CacheEntry) (ttl : Nat) : SqlCache :=
  if c.any (fun kv => kv.1 = k) then
    c.map (fun kv => if kv.1 = k then (k, now + ttl, v) else kv)
  else c ++ [(k, now + ttl, v)]

/-- `LLM_SQL_CACHE_TTL_SECONDS` (default). -/
def LLM_SQL_CACHE_TTL_SECONDS : Nat := 21600

/-- The response of `generate_sql_with_llm` (the fields `generate_sql`
reads). -/
structure LLMResponse where
  sql : Str
  answer_type : Str
  assumptions : List Str
  model_name : Option Str
  chart_hint : Str
  summary : Str
deriving DecidableEq

/-- The external world of one `generate_sql` call: the text-generation backend
(indexed by the 1-based attempt number; `none` models an unavailable backend)
and the configured model identifier. -/
structure GenEnv where
  llm : Nat → Option LLMResponse
  model : Str

/-- The module state of `nl_to_sql` after `set_active_plugin`: the active
plugin configuration and the `SQL_GUARD` built from it. -/
structure ActiveState where
  plugin : Plugin
  guard : SQLGuard

/-- `SQLGenerationResult`. -/
structure SQLGenerationResult where
  sql : Option Str
  answer_type : Str
  assumptions : List Str
  confidence : Str
  intent : Str
  repairs : Nat
  model_name : Option Str
  failure_reason : Option Str
  cache_hit : Bool
  chart_hint : Str
  summary : Str
deriving DecidableEq

/-- The candidate normalisation chain applied to an LLM response inside the
generation loop of `generate_sql`. -/
def candidateOf (st : ActiveState) (resp : LLMResponse) : Str :=
  normalize_sql
    (clamp_date_range
      (fix_date_literal_intervals resp.sql)
      st.plugin.primaryTimeColumn
      st.plugin.maxDateRangeDays)
    200

/-- The state threaded through the generation loop of `generate_sql`:
`attempts`, `last_error` (its `error` field), `response` and `sql`. -/
structure GenLoopState where
  attempts : Nat
  lastError : Option Str
  response : Option LLMResponse
  sql : Option Str

/-- The rendering of a `SQLGuardError` used as the `error` field of the
structured feedback. -/
def guardErrorMessage : GuardError → Str
  | .notSelect => str "Query must be a SELECT statement."
  | .forbiddenKeyword kw => str "Query contains forbidden keyword: " ++ kw
  | .disallowedIdentifiers ids =>
    str "Query references identifiers not in allowlist: " ++ (str ", ").intercalate ids
  | .suspiciousPattern _ => str "Query contains suspicious pattern"
  | .riskyFunction fn => str "Query uses disallowed function " ++ fn
  | .literalDatasetFilter => str "Dataset filter must be parameterized, not literal."

/-- The `while attempts < 2` repair loop of `generate_sql`: call the backend,
normalise the candidate, validate it with the guard; break on success, retry
with structured feedback on failure. -/
def genLoop (st : ActiveState) (env : GenEnv) : Nat → GenLoopState → GenLoopState
  | 0, r => r
  | fuel + 1, r =>
    let attempts := r.attempts + 1
    match env.llm attempts with
    | none =>
      genLoop st env fuel
        { attempts := attempts, lastError := some (str "llm_unavailable"),
          response := none, sql := r.sql }
    | some resp =>
      let candidate_sql := candidateOf st resp
      match st.guard.validate candidate_sql with
      | .ok _ =>
        { attempts := attempts, lastError := r.lastError,
          response := some resp, sql := some candidate_sql }
      | .error e =>
        genLoop st env fuel
          { attempts := attempts, lastError := some (guardErrorMessage e),
            response := some resp, sql := r.sql }

/-- The cache-key object `generate_sql` hashes (`stable_hash` is modelled as
the identity on the key object). -/
def genCacheKey (st : ActiveState) (env : GenEnv) (query : Str)
    (dataset_id : Str) (dataset_version : Nat)
    (plugin_config_hash : Str) (prompt_version : Str) : CacheKey :=
  { plugin := st.plugin.name, dataset_id := dataset_id,
    dataset_version := dataset_version, question := normalize_question query,
    config_hash := if plugin_config_hash = [] then st.plugin.name else plugin_config_hash,
    prompt_version := prompt_version, model := env.model }

/-- `nl_to_sql.generate_sql`.  Intent classification, tenant-policy validation
(raised errors modelled as `.error`), cache lookup, the two-attempt generation
loop, confidence assignment and caching of successful results.  Returns the
`SQLGenerationResult` together with the updated cache store. -/
def generate_sql (st : ActiveState) (env : GenEnv) (now : Nat) (cache : SqlCache)
    (query : Str) (dataset_id : Str) (dataset_version : Nat)
    (plugin_config_hash : Str) (prompt_version : Str) :
    Except Str (SQLGenerationResult × SqlCache) :=
  let intent := classify_intent query
  if intent = str "unsupported" then
    .ok ({ sql := none, answer_type := str "text", assumptions := [],
           confidence := str "low", intent := intent, repairs := 0,
           model_name := none, failure_reason := some (str "unsupported_intent"),
           cache_hit := false, chart_hint := str "none", summary := [] }, cache)
  else if intent = str "needs_clarification" then
    .ok ({ sql := none, answer_type := str "text", assumptions := [],
           confidence := str "low", intent := intent, repairs := 0,
           model_name := none, failure_reason := some (str "clarification_required"),
           cache_hit := false, chart_hint := str "none", summary := [] }, cache)
  else
    match st.plugin.validate_question query with
    | (false, reason) => .error (str "Question validation failed: " ++ reason)
    | (true, _) =>
      let cache_key : CacheKey :=
        genCacheKey st env query dataset_id dataset_version plugin_config_hash prompt_version
      match cache_get now cache cache_key with
      | (some cached, cache1) =>
        .ok ({ sql := some cached.sql, answer_type := cached.answer_type,
               assumptions := cached.assumptions, confidence := str "high",
               intent := str "analytics_query", repairs := 0,
               model_name := cached.model_name, failure_reason := none,
               cache_hit := true, chart_hint := cached.chart_hint,
               summary := cached.summary }, cache1)
      | (none, cache1) =>
        let lr := genLoop st env 2
          { attempts := 0, lastError := none, response := none, sql := none }
        let confidence :=
          if lr.sql.isSome && lr.attempts = 1 then str "high"
          else if lr.sql.isSome then str "medium" else str "low"
        let result : SQLGenerationResult :=
          { sql := lr.sql,
            answer_type := match lr.response with
              | some resp => resp.answer_type
              | none => str "text",
            assumptions := match lr.response with
              | some resp => resp.assumptions
              | none => [],
            confidence := if lr.sql.isSome then confidence else str "low",
            intent := intent,
            repairs := lr.attempts - 1,
            model_name := match lr.response with
              | some resp => resp.model_name
              | none => none,
            failure_reason :=
              if lr.sql.isSome then none
              else match lr.lastError with
                | some e => some e
                | none => some (str "generation_failed"),
            cache_hit := false,
            chart_hint := match lr.response with
              | some resp => resp.chart_hint
              | none => str "none",
            summary := match lr.response with
              | some resp => resp.summary
              | none => [] }
        match lr.sql with
        | some s =>
          .ok (result, cache_set now cache1 cache_key
            { sql := s, answer_type := result.answer_type,
              assumptions := result.assumptions, model_name := result.model_name,
              chart_hint := result.chart_hint, summary := result.summary }
            LLM_SQL_CACHE_TTL_SECONDS)
        | none => .ok (result, cache1)

/-- Attempt `n` of the generation loop "passes": the backend answers the
`n`-th call and the normalised candidate passes the guard. -/
def attemptPasses (st : ActiveState) (env : GenEnv) (n : Nat) : Prop :=
  ∃ resp, env.llm n = some resp ∧ st.guard.validate (candidateOf st resp) = .ok ()

/-- The generation loop of `generate_sql`, run from its initial state with the
source's attempt budget of 2. -/
def genLoopRun (st : ActiveState) (env : GenEnv) : GenLoopState :=
  genLoop st env 2 { attempts := 0, lastError := none, response := none, sql := none }

/-- A cache store is well-formed for a guard when every stored entry's SQL
passes validation. -/
def WFCache (g : SQLGuard) (c : SqlCache) : Prop :=
  ∀ kv ∈ c, g.validate kv.2.2.sql = .ok ()

/-! ## Goal execution engine (`app/agent_service.py`) -/

/-- `AgentPlanStep.status` values. -/
inductive StepStatus
  | pending
  | running
  | completed
  | failed
  | blocked
  | skipped
deriving DecidableEq

/-- `AgentGoal.status` values (`open` is written `opened`). -/
inductive GoalStatus
  | opened
  | inProgress
  | waitingApproval
  | failed
  | completed
deriving DecidableEq

/-- A handler output payload (the dictionary keys the engine itself reads;
`payload` stands for the remaining opaque data). -/
structure StepOut where
  sql : Option Str := none
  requiresApproval : Bool := false
  approvalToken : Option Str := none
  correctedSql : Option Str := none
  summary : Option Str := none
  payload : Nat := 0
deriving DecidableEq

/-- `AgentPlanStep` (the fields the execution engine reads and writes). -/
structure PlanStep where
  order : Nat
  title : Str
  description : Str
  tool : Str
  status : StepStatus
  requiresApproval : Bool
  output : Option StepOut
  error : Option Str
deriving DecidableEq

/-- `AgentGoal` (the fields the execution engine reads and writes;
`stepOutputs` is `working_memory["step_outputs"]`, `focusQuestion` is
`working_memory["focus_question"]` with `[]` for an absent key). -/
structure Goal where
  status : GoalStatus
  approvalToken : Option Str
  requiresHumanApproval : Bool
  stepOutputs : List (Str × StepOut)
  focusQuestion : Str
  goalText : Str
  datasetId : Option Str
  resultSummary : Option Str
deriving DecidableEq

/-- A goal together with its plan steps (stored in ascending `step_order`). -/
structure GoalState where
  goal : Goal
  steps : List PlanStep
deriving DecidableEq

/-- `TOOL_CATALOG`. -/
def TOOL_CATALOG : List (Str × Str) :=
  [(str "schema_retrieval", str "Retrieve relevant tables/columns/joins for the goal."),
   (str "kb_retrieval", str "Retrieve business docs and KPI definitions."),
   (str "example_retrieval", str "Retrieve similar successful Q->SQL examples."),
   (str "sql_generation", str "Generate SQL candidate for the target question."),
   (str "sql_verifier", str "Verify SQL-question alignment and safe constraints."),
   (str "sql_execution", str "Execute SQL and collect structured results."),
   (str "anomaly_scan", str "Check for outliers/sharp changes in the result."),
   (str "summary_writer", str "Write concise analyst-style summary.")]

/-- `TOOL_CATALOG.get(tool, "")`. -/
def catalogDescription (tool : Str) : Str :=
  match TOOL_CATALOG.find? (fun kv => kv.1 = tool) with
  | some kv => kv.2
  | none => []

/-- `_normalize_goal_title`: first 80 characters, or a default when empty. -/
def normalize_goal_title (goal_text : Str) : Str :=
  let txt := pyStrip goal_text
  if txt = [] then str "Data analysis goal" else txt.take 80

/-- `_extract_focus_question`. -/
def extract_focus_question (goal_text : Str) : Str :=
  let t := pyStrip goal_text
  if t = [] then str "Summarize key metrics for the selected data." else t

/-- A planned step before persistence: `{"title": .., "tool_name": ..}`. -/
structure PlanItem where
  title : Str
  tool : Str
deriving DecidableEq

/-- The keywords that trigger insertion of an anomaly-scan step. -/
def anomalyKeywords : List Str :=
  [str "anomaly", str "drop", str "spike", str "sudden", str "outlier"]

/-- `agent_service._heuristic_plan`: the fixed base pipeline, with an
anomaly-scan step inserted at index 6 when the goal text contains an
anomaly-indicative keyword. -/
def heuristic_plan (goal_text : Str) : List PlanItem :=
  let q := pyLower goal_text
  let steps : List PlanItem :=
    [{ title := str "Collect schema context", tool := str "schema_retrieval" },
     { title := str "Collect business context", tool := str "kb_retrieval" },
     { title := str "Collect similar examples", tool := str "example_retrieval" },
     { title := str "Generate SQL", tool := str "sql_generation" },
     { title := str "Verify SQL", tool := str "sql_verifier" },
     { title := str "Execute SQL", tool := str "sql_execution" },
     { title := str "Write analyst summary", tool := str "summary_writer" }]
  if anomalyKeywords.any (fun k => containsSubstr q k) then
    steps.insertIdx 6 { title := str "Scan anomalies", tool := str "anomaly_scan" }
  else steps

/-- Parse one line of the LLM planner output: strip, require a `|`, split at
the first `|`, strip both fields, keep only catalog tools, defaulting an empty
title to the catalog description. -/
def parsePlanLine (line : Str) : Option PlanItem :=
  let line := pyStrip line
  if containsSubstr line (str "|") then
    let tool := pyStrip (line.takeWhile (fun c => ¬ c = '|'))
    let title := pyStrip ((line.dropWhile (fun c => ¬ c = '|')).drop 1)
    if TOOL_CATALOG.any (fun kv => kv.1 = tool) then
      some { tool := tool, title := if title = [] then catalogDescription tool else title }
    else none
  else none

/-- The parsed LLM plan: the usable lines of the planner text. -/
def parsePlanLines (txt : Str) : List PlanItem :=
  (pySplitLines txt).filterMap parsePlanLine

/-- `agent_service.plan_goal`, with the availability and output of the LLM
planner modelled as an optional planner text (`none` when the backend is
unavailable or disabled, or when the call raises).  Returns the goal title and
the ordered plan. -/
def plan_goal (plannerText : Option Str) (goal_text : Str) : Str × List PlanItem :=
  let base_steps := heuristic_plan goal_text
  let base_steps :=
    match plannerText with
    | some txt =>
      let parsed := parsePlanLines txt
      if ¬ parsed = [] then parsed.take 10 else base_steps
    | none => base_steps
  (normalize_goal_title goal_text, base_steps)

/-- `agent_service.create_goal_with_plan`: build the plan, create the goal
`open` with working memory holding only the focus question, and create one
`pending` step per plan item with 1-based contiguous orders. -/
def create_goal_with_plan (plannerText : Option Str) (goal_text : Str)
    (dataset_id : Option Str) : GoalState :=
  let plan := plan_goal plannerText goal_text
  { goal :=
      { status := .opened, approvalToken := none, requiresHumanApproval := false,
        stepOutputs := [], focusQuestion := extract_focus_question goal_text,
        goalText := goal_text, datasetId := dataset_id, resultSummary := none },
    steps := (List.range plan.2.length).zipWith
      (fun i item =>
        { order := i + 1, title := item.title,
          description := catalogDescription item.tool, tool := item.tool,
          status := .pending, requiresApproval := false,
          output := none, error := none })
      plan.2 }

/-- The outcome of one external tool invocation: a returned payload or a
raised exception. -/
inductive HandlerOutcome
  | ok (out : StepOut)
  | exn (msg : Str)
deriving DecidableEq

/-- The external world of one `execute_goal` run: for each step order, the
payload or exception of its (retrieval / LLM / database) call, and the
approval token `secrets.token_urlsafe(16)` would generate for it. -/
structure RunEnv where
  outcome : Nat → HandlerOutcome
  token : Nat → Str

/-- The caller-supplied arguments of `execute_goal`. -/
structure RunConfig where
  auto_approve : Bool
  max_steps : Nat
  approval_token : Option Str

/-- The parameter names of `nl_to_sql.generate_sql`. -/
def generateSqlParams : List Str :=
  [str "query", str "dataset_id", str "dataset_version", str "plugin_config_hash",
   str "prompt_version", str "conversation_history"]

/-- The keyword arguments `_run_step_sql_generation` passes to
`nl_to_sql.generate_sql`. -/
def runStepSqlGenerationKwargs : List Str :=
  [str "dataset_id", str "dataset_version", str "learning_context", str "use_cache"]

/-- Whether the call in `_run_step_sql_generation` raises a `TypeError`: a
Python call raises `TypeError` iff it passes a keyword argument that is not a
parameter of the callee. -/
def sqlGenerationCallRaisesTypeError : Bool :=
  ¬ runStepSqlGenerationKwargs.all (fun k => generateSqlParams.contains k)

/-- The message of that `TypeError`. -/
def typeErrorMsg : Str :=
  str "generate_sql() got an unexpected keyword argument 'learning_context'"

/-- `step_outputs.get("sql_generation") or {}).get("sql")`. -/
def soSql (so : List (Str × StepOut)) : Option Str :=
  match so.find? (fun kv => kv.1 = str "sql_generation") with
  | some kv => kv.2.sql
  | none => none

/-- Dictionary assignment `step_outputs[key] = out` (insertion order
preserved, existing key replaced). -/
def soUpdate (so : List (Str × StepOut)) (key : Str) (out : StepOut) :
    List (Str × StepOut) :=
  if so.any (fun kv => kv.1 = key) then
    so.map (fun kv => if kv.1 = key then (key, out) else kv)
  else so ++ [(key, out)]

/-- The `corrected_sql` rewrite of the `sql_verifier` branch:
`sg = step_outputs.get("sql_generation") or {}; sg["sql"] = corrected`. -/
def applyCorrection (so : List (Str × StepOut)) (out : StepOut) :
    List (Str × StepOut) :=
  match out.correctedSql with
  | some c =>
    if ¬ c = [] then
      let sg := match so.find? (fun kv => kv.1 = str "sql_generation") with
        | some kv => kv.2
        | none => {}
      soUpdate so (str "sql_generation") { sg with sql := some c }
    else so
  | none => so

/-- `_run_step_sql_execution`: block on risky SQL without auto-approval;
otherwise enforce the dataset filter when a dataset is set (a guard error
raising out of the handler) and run the database call.  Database payloads
carry no approval keys, hence `requiresApproval`/`approvalToken` are cleared
on its outcome. -/
def run_step_sql_execution (env : RunEnv) (sql : Str) (dataset_id : Option Str)
    (auto_approve : Bool) (order : Nat) : HandlerOutcome :=
  if is_risky_sql sql && !auto_approve then
    .ok { requiresApproval := true, approvalToken := some (env.token order) }
  else
    let enforced : Except GuardError Unit :=
      match dataset_id with
      | some _ =>
        (match SQLGuard.enforce_dataset_filter sql (str "dataset_id") with
         | .ok _ => .ok ()
         | .error e => .error e)
      | none => .ok ()
    match enforced with
    | .error e => .exn (guardErrorMessage e)
    | .ok _ =>
      match env.outcome order with
      | .ok o => .ok { o with requiresApproval := false, approvalToken := none }
      | .exn m => .exn m

/-- Dispatch a step to its tool handler (`execute_goal`'s `if/elif` chain on
`step.tool_name`).  The `sql_generation` branch always raises the keyword
`TypeError`; the `sql_verifier` and `sql_execution` branches raise when no
generated SQL is available; the remaining tools are external calls; an unknown
tool yields the `unknown tool` message payload. -/
def dispatch (env : RunEnv) (auto_approve : Bool) (g : Goal)
    (so : List (Str × StepOut)) (step : PlanStep) : HandlerOutcome :=
  if step.tool = str "sql_generation" then
    if sqlGenerationCallRaisesTypeError then .exn typeErrorMsg
    else env.outcome step.order
  else if step.tool = str "sql_verifier" then
    match soSql so with
    | some sql => if sql = [] then .exn (str "missing_sql_for_verification") else env.outcome step.order
    | none => .exn (str "missing_sql_for_verification")
  else if step.tool = str "sql_execution" then
    match soSql so with
    | some sql =>
      if sql = [] then .exn (str "missing_sql_for_execution")
      else run_step_sql_execution env sql g.datasetId auto_approve step.order
    | none => .exn (str "missing_sql_for_execution")
  else if (TOOL_CATALOG.any (fun kv => kv.1 = step.tool)) then env.outcome step.order
  else .ok { payload := 0 }

/-- Replace the status of the step with the given order. -/
def setStatus (steps : List PlanStep) (order : Nat) (st : StepStatus) :
    List PlanStep :=
  steps.map (fun s => if s.order = order then { s with status := st } else s)

/-- Apply `f` to the step with the given order. -/
def updateStep (steps : List PlanStep) (order : Nat) (f : PlanStep → PlanStep) :
    List PlanStep :=
  steps.map (fun s => if s.order = order then f s else s)

/-- The mutable run state of `execute_goal`'s loop: the goal row, the step
rows, the local `step_outputs` dictionary and `executed_count`. -/
structure LoopSt where
  goal : Goal
  steps : List PlanStep
  so : List (Str × StepOut)
  executed : Nat

/-- The token comparison guarding the approval reset:
`approval_token and goal.approval_token and approval_token ==
goal.approval_token` (empty strings are falsy). -/
def tokenMatches (supplied stored : Option Str) : Bool :=
  match supplied, stored with
  | some t, some gt => ¬ t = [] && (¬ gt = [] && t = gt)
  | _, _ => false

/-- The approval reset applied to a blocked step whose token matches
(`agent_service.execute_goal`, lines 430-435): the step returns to `pending`
and the goal's approval flag and token are cleared. -/
def approveReset (g : Goal) : Goal :=
  { g with requiresHumanApproval := false, approvalToken := none,
           status := .inProgress }

/-- Execute one eligible step (mark running, dispatch, then complete / fail /
block) and continue with the rest of the snapshot.  `continueRun` is the loop
continuation. -/
def execStep (env : RunEnv) (cfg : RunConfig) (step : PlanStep)
    (st : LoopSt) (continueRun : LoopSt → LoopSt) : LoopSt :=
  let steps1 := setStatus st.steps step.order .running
  match dispatch env cfg.auto_approve st.goal st.so step with
  | .exn msg =>
    { st with
      steps := updateStep steps1 step.order
        (fun s => { s with status := .failed, error := some msg }),
      goal := { st.goal with status := .failed } }
  | .ok out =>
    let so1 := if step.tool = str "sql_verifier" then applyCorrection st.so out else st.so
    if step.tool = str "sql_execution" && out.requiresApproval then
      let blockedGoal : Goal :=
        { st.goal with status := .waitingApproval, requiresHumanApproval := true,
                       approvalToken := out.approvalToken }
      { st with
        steps := updateStep steps1 step.order
          (fun s => { s with status := .blocked, requiresApproval := true,
                             output := some out }),
        goal := blockedGoal }
    else
      continueRun
        { goal := st.goal,
          steps := updateStep steps1 step.order
            (fun s => { s with status := .completed, output := some out }),
          so := soUpdate so1 step.tool out,
          executed := st.executed + 1 }

/-- The step loop of `execute_goal` over the snapshot of pending/blocked
steps: stop on exhausted budget; skip blocked steps without a matching token,
reset them on a match; dispatch eligible steps, stopping the run on a failure
or on a block. -/
def runLoop (env : RunEnv) (cfg : RunConfig) :
    List PlanStep → LoopSt → LoopSt
  | [], st => st
  | step :: rest, st =>
    if st.executed ≥ cfg.max_steps then st
    else if step.status = .blocked then
      if tokenMatches cfg.approval_token st.goal.approvalToken then
        execStep env cfg { step with status := .pending }
          { st with goal := approveReset st.goal,
                    steps := setStatus st.steps step.order .pending }
          (runLoop env cfg rest)
      else runLoop env cfg rest st
    else execStep env cfg step st (runLoop env cfg rest)

/-- The finalisation of `execute_goal`: `completed` iff every step ended
`completed` or `skipped` (with the result summary and the learning-loop
write-back), else `in_progress` unless already `waiting_approval` or `failed`;
the working memory is rewritten with the question and the accumulated step
outputs. -/
def finalizeGoal (question : Str) (st : LoopSt) : Goal :=
  let g := st.goal
  let g :=
    if st.steps.all (fun s => s.status = .completed || s.status = .skipped) then
      { g with status := .completed,
               resultSummary :=
                 match st.so.find? (fun kv => kv.1 = str "summary_writer") with
                 | some kv => kv.2.summary
                 | none => none }
    else if ¬ g.status = .waitingApproval ∧ ¬ g.status = .failed then
      { g with status := .inProgress }
    else g
  { g with stepOutputs := st.so, focusQuestion := question }

/-- `agent_service.execute_goal`: mark the goal `in_progress`, snapshot the
pending/blocked steps in ascending order, run the loop, finalise the goal
status and working memory.  Returns the new state and `executed_count`. -/
def execute_goal (env : RunEnv) (cfg : RunConfig) (gs : GoalState) :
    GoalState × Nat :=
  let g0 := { gs.goal with status := .inProgress }
  let question := if ¬ gs.goal.focusQuestion = [] then gs.goal.focusQuestion
    else gs.goal.goalText
  let snapshot := gs.steps.filter
    (fun s => s.status = .pending || s.status = .blocked)
  let st1 := runLoop env cfg snapshot
    { goal := g0, steps := gs.steps, so := g0.stepOutputs, executed := 0 }
  ({ goal := finalizeGoal question st1, steps := st1.steps }, st1.executed)

/-- The goal states reachable from goal creation through any sequence of
`execute_goal` runs under arbitrary environments and run arguments. -/
inductive Reach : GoalState → Prop
  | created (plannerText : Option Str) (goal_text : Str) (dataset_id : Option Str) :
      Reach (create_goal_with_plan plannerText goal_text dataset_id)
  | step {gs : GoalState} (env : RunEnv) (cfg : RunConfig) :
      Reach gs → Reach (execute_goal env cfg gs).1

/-! ## General lemmas about the string model -/

theorem countSubstr_cons (c : Char) (t p : Str) :
    countSubstr (c :: t) p = (if p.isPrefixOf (c :: t) then 1 else 0) + countSubstr t p := rfl

theorem prefix_append_mid {p z w : Str} {c : Char} (h : c ∉ p) :
    p <+: (z ++ c :: w) ↔ p <+: z := by
  constructor
  · intro hp
    induction p generalizing z with
    | nil => simp
    | cons d p' ih =>
      cases z with
      | nil =>
        rcases List.cons_prefix_cons.mp hp with ⟨h1, _⟩
        exact absurd (h1 ▸ List.mem_cons_self d p') h
      | cons e z' =>
        rcases List.cons_prefix_cons.mp hp with ⟨h1, h2⟩
        exact h1 ▸ List.cons_prefix_cons.mpr
          ⟨rfl, ih (fun hm => h (List.mem_cons_of_mem _ hm)) h2⟩
  · intro hp
    exact hp.trans (z.prefix_append (c :: w))

theorem isPrefixOf_append_mid {p z w : Str} {c : Char} (h : c ∉ p) :
    p.isPrefixOf (z ++ c :: w) = p.isPrefixOf z := by
  rw [Bool.eq_iff_iff]
  simpa only [List.isPrefixOf_iff_prefix] using prefix_append_mid h

theorem not_isPrefixOf_of_head_mem {p : Str} {c : Char} {t : Str} (hp : p ≠ [])
    (h : c ∉ p) : p.isPrefixOf (c :: t) = false := by
  cases p with
  | nil => exact absurd rfl hp
  | cons d p' =>
    by_contra hb
    have hb' : (d :: p').isPrefixOf (c :: t) = true := by
      revert hb; cases (d :: p').isPrefixOf (c :: t) <;> simp
    rcases List.cons_prefix_cons.mp (List.isPrefixOf_iff_prefix.mp hb') with ⟨h1, _⟩
    exact h (h1 ▸ List.mem_cons_self d p')

theorem countSubstr_append_mid {x y p : Str} {c : Char} (h : c ∉ p) :
    countSubstr (x ++ c :: y) p = countSubstr x p + countSubstr (c :: y) p := by
  induction x with
  | nil => simp [countSubstr]
  | cons a t ih =>
    have hpre : p.isPrefixOf (a :: (t ++ c :: y)) = p.isPrefixOf (a :: t) :=
      isPrefixOf_append_mid (p := p) (z := a :: t) (w := y) h
    rw [List.cons_append, countSubstr_cons, ih, hpre]
    conv_rhs => rw [countSubstr_cons]
    omega

theorem countSubstr_eq_zero_of_disjoint {l p : Str} (hp : p ≠ [])
    (h : ∀ c ∈ l, c ∉ p) : countSubstr l p = 0 := by
  induction l with
  | nil => rfl
  | cons c t ih =>
    rw [countSubstr_cons, not_isPrefixOf_of_head_mem hp (h c (List.mem_cons_self c t))]
    simpa using ih (fun d hd => h d (List.mem_cons_of_mem _ hd))

theorem not_prefix_append {p s z : Str} (h1 : ¬ s <+: p) (h2 : ¬ p <+: s) :
    ¬ p <+: s ++ z := by
  induction p generalizing s with
  | nil => exact absurd List.nil_prefix h2
  | cons a p' ih =>
    cases s with
    | nil => exact absurd List.nil_prefix h1
    | cons b s' =>
      intro hp
      rcases List.cons_prefix_cons.mp hp with ⟨hab, hrest⟩
      subst hab
      exact ih (fun hx => h1 (List.cons_prefix_cons.mpr ⟨rfl, hx⟩))
        (fun hx => h2 (List.cons_prefix_cons.mpr ⟨rfl, hx⟩)) hrest

/-- No nonempty suffix of `w` is prefix-comparable with `p`: appending any
text to `w` cannot create an occurrence of `p` starting inside `w`. -/
def noPartialOverlap (w p : Str) : Bool :=
  w.tails.all (fun s => s.isEmpty || (!(s.isPrefixOf p) && !(p.isPrefixOf s)))

theorem countSubstr_append_left {w z p : Str}
    (h : noPartialOverlap w p = true) : countSubstr (w ++ z) p = countSubstr z p := by
  induction w with
  | nil => simp
  | cons c t ih =>
    have hmem : (c :: t) ∈ (c :: t).tails := by
      rw [List.tails_cons]; exact List.mem_cons_self _ _
    have h1 : ¬ (c :: t) <+: p ∧ ¬ p <+: (c :: t) := by
      have hx := List.all_eq_true.mp h _ hmem
      simp only [List.isEmpty_iff, Bool.or_eq_true, Bool.and_eq_true,
        Bool.not_eq_true', decide_eq_true_eq] at hx
      rcases hx with h' | ⟨ha, hb⟩
      · exact absurd h' (List.cons_ne_nil c t)
      · constructor
        · rw [← List.isPrefixOf_iff_prefix]; simp [ha]
        · rw [← List.isPrefixOf_iff_prefix]; simp [hb]
    have htail : noPartialOverlap t p = true := by
      rw [noPartialOverlap, List.all_eq_true]
      intro s hs
      exact List.all_eq_true.mp h s (by rw [List.tails_cons]; exact List.mem_cons_of_mem _ hs)
    have hnp : ¬ p <+: (c :: t) ++ z := not_prefix_append h1.1 h1.2
    have hb : p.isPrefixOf (c :: (t ++ z)) = false := by
      rw [← Bool.not_eq_true, List.isPrefixOf_iff_prefix]
      simpa using hnp
    rw [List.cons_append, countSubstr_cons, hb]
    simpa using ih htail

theorem countSubstr_self_append {d : Char} {p' z : Str} :
    countSubstr ((d :: p') ++ z) (d :: p') = 1 + countSubstr (p' ++ z) (d :: p') := by
  have hb : (d :: p').isPrefixOf (d :: (p' ++ z)) = true := by
    rw [List.isPrefixOf_iff_prefix]
    exact List.cons_prefix_cons.mpr ⟨rfl, p'.prefix_append z⟩
  rw [List.cons_append, countSubstr_cons, hb]
  simp

theorem countSubstr_dropWhile {q : Char → Bool} {l p : Str} (hp : p ≠ [])
    (h : ∀ c, q c = true → c ∉ p) :
    countSubstr (l.dropWhile q) p = countSubstr l p := by
  induction l with
  | nil => rfl
  | cons c t ih =>
    by_cases hc : q c = true
    · rw [List.dropWhile_cons_of_pos hc, ih, countSubstr_cons,
        not_isPrefixOf_of_head_mem hp (h c hc)]
      simp
    · rw [List.dropWhile_cons_of_neg hc]

theorem rdropWhile_append_rtakeWhile (q : Char → Bool) (l : Str) :
    l.rdropWhile q ++ l.rtakeWhile q = l := by
  rw [List.rdropWhile, List.rtakeWhile, ← List.reverse_append,
    List.takeWhile_append_dropWhile, List.reverse_reverse]

theorem countSubstr_rdropWhile {q : Char → Bool} {l p : Str} (hp : p ≠ [])
    (h : ∀ c, q c = true → c ∉ p) :
    countSubstr (l.rdropWhile q) p = countSubstr l p := by
  conv_rhs => rw [← rdropWhile_append_rtakeWhile q l]
  cases h2 : l.rtakeWhile q with
  | nil => simp
  | cons c w =>
    have hc : q c = true := List.mem_rtakeWhile_imp (by rw [h2]; exact List.mem_cons_self c w)
    rw [countSubstr_append_mid (h c hc)]
    have hz : countSubstr (c :: w) p = 0 := by
      refine countSubstr_eq_zero_of_disjoint hp (fun d hd => ?_)
      exact h d (List.mem_rtakeWhile_imp (h2 ▸ hd))
    omega

theorem containsSubstr_iff {l p : Str} : containsSubstr l p = true ↔ p <:+: l := by
  induction l with
  | nil =>
    rw [containsSubstr]
    constructor
    · intro h
      rw [List.isEmpty_iff.mp h]
    · intro h
      rw [List.eq_nil_of_infix_nil h]
      rfl
  | cons c t ih =>
    rw [containsSubstr]
    simp only [Bool.or_eq_true, List.isPrefixOf_iff_prefix, ih]
    exact (List.infix_cons_iff).symm

theorem countSubstr_eq_zero_of_not_infix {l p : Str} (h : ¬ p <:+: l) :
    countSubstr l p = 0 := by
  induction l with
  | nil => rfl
  | cons c t ih =>
    have h1 : p.isPrefixOf (c :: t) = false := by
      rw [← Bool.not_eq_true, List.isPrefixOf_iff_prefix]
      exact fun hx => h hx.isInfix
    have h2 : ¬ p <:+: t := fun hx => h (List.infix_cons_iff.mpr (Or.inr hx))
    rw [countSubstr_cons, h1, ih h2]
    simp

theorem wordOccursFrom_infixOf {pat l : Str} {prev : Bool}
    (h : wordOccursFrom pat prev l = true) : pat <:+: l := by
  induction l generalizing prev with
  | nil => rw [wordOccursFrom] at h; exact absurd h (by simp)
  | cons c t ih =>
    rw [wordOccursFrom] at h
    rcases (Bool.or_eq_true _ _).mp h with h1 | h2
    · rcases (Bool.and_eq_true _ _).mp h1 with ⟨h1', _⟩
      rcases (Bool.and_eq_true _ _).mp h1' with ⟨_, hpre⟩
      exact (List.isPrefixOf_iff_prefix.mp hpre).isInfix
    · exact List.infix_cons_iff.mpr (Or.inr (ih h2))

theorem literalEqFrom_infixOf {p l : Str} {prev : Bool}
    (h : SQLGuard.literalEqFrom p prev l = true) : p <:+: l := by
  induction l generalizing prev with
  | nil => rw [SQLGuard.literalEqFrom] at h; exact absurd h (by simp)
  | cons c t ih =>
    rw [SQLGuard.literalEqFrom] at h
    rcases (Bool.or_eq_true _ _).mp h with h1 | h2
    · rcases (Bool.and_eq_true _ _).mp h1 with ⟨h1', _⟩
      rcases (Bool.and_eq_true _ _).mp h1' with ⟨_, hpre⟩
      exact (List.isPrefixOf_iff_prefix.mp hpre).isInfix
    · exact List.infix_cons_iff.mpr (Or.inr (ih h2))

theorem not_word_of_space {c : Char} (h : pyIsSpace c = true) : isWordChar c = false := by
  have hc : c = ' ' ∨ c = '\t' ∨ c = '\n' ∨ c = '\x0d' ∨ c = '\x0b' ∨ c = '\x0c' := by
    simpa [pyIsSpace, or_assoc] using h
  rcases hc with h | h | h | h | h | h <;> subst h <;> decide

theorem pyIsSpace_pyLowerChar (c : Char) : pyIsSpace (pyLowerChar c) = pyIsSpace c := by
  rw [pyLowerChar]
  cases hf : casePairs.find? (fun kv => kv.1 = c) with
  | none => rfl
  | some kv =>
    have hmem := List.mem_of_find?_eq_some hf
    have hc : kv.1 = c := by simpa using List.find?_some hf
    have hprop : ∀ x ∈ casePairs, pyIsSpace x.2 = false ∧ pyIsSpace x.1 = false := by decide
    rw [(hprop kv hmem).1, ← hc, (hprop kv hmem).2]

theorem pyIsSpace_pyUpperChar (c : Char) : pyIsSpace (pyUpperChar c) = pyIsSpace c := by
  rw [pyUpperChar]
  cases hf : casePairs.find? (fun kv => kv.2 = c) with
  | none => rfl
  | some kv =>
    have hmem := List.mem_of_find?_eq_some hf
    have hc : kv.2 = c := by simpa using List.find?_some hf
    have hprop : ∀ x ∈ casePairs, pyIsSpace x.2 = false ∧ pyIsSpace x.1 = false := by decide
    rw [(hprop kv hmem).2, ← hc, (hprop kv hmem).1]

theorem rdropWhile_map (q : Char → Bool) (f : Char → Char) (l : Str) :
    (l.map f).rdropWhile q = (l.rdropWhile (fun c => q (f c))).map f := by
  rw [List.rdropWhile, List.rdropWhile, ← List.map_reverse, List.dropWhile_map,
    List.map_reverse]
  rfl

theorem pyUpper_pyStrip (s : Str) : pyUpper (pyStrip s) = pyStrip (pyUpper s) := by
  rw [pyStrip, pyStrip, pyLstrip, pyRstrip, pyLstrip, pyRstrip, pyUpper, pyUpper,
    List.dropWhile_map, rdropWhile_map]
  have h1 : (pyIsSpace ∘ pyUpperChar) = pyIsSpace := funext pyIsSpace_pyUpperChar
  have h2 : (fun c => pyIsSpace (pyUpperChar c)) = pyIsSpace := funext pyIsSpace_pyUpperChar
  rw [h1, h2]

theorem pyLower_pyStrip (s : Str) : pyLower (pyStrip s) = pyStrip (pyLower s) := by
  rw [pyStrip, pyStrip, pyLstrip, pyRstrip, pyLstrip, pyRstrip, pyLower, pyLower,
    List.dropWhile_map, rdropWhile_map]
  have h1 : (pyIsSpace ∘ pyLowerChar) = pyIsSpace := funext pyIsSpace_pyLowerChar
  have h2 : (fun c => pyIsSpace (pyLowerChar c)) = pyIsSpace := funext pyIsSpace_pyLowerChar
  rw [h1, h2]

theorem wordOccursFrom_of_prev {pat l : Str} {prev : Bool}
    (h : wordOccursFrom pat prev l = true) : wordOccursFrom pat false l = true := by
  induction l generalizing prev with
  | nil => rw [wordOccursFrom] at h; exact absurd h (by simp)
  | cons c t ih =>
    rw [wordOccursFrom] at h ⊢
    rcases (Bool.or_eq_true _ _).mp h with h1 | h2
    · rcases (Bool.and_eq_true _ _).mp h1 with ⟨h1', hb⟩
      rcases (Bool.and_eq_true _ _).mp h1' with ⟨_, hpre⟩
      exact (Bool.or_eq_true _ _).mpr (Or.inl (by simp [hpre, hb]))
    · exact (Bool.or_eq_true _ _).mpr (Or.inr h2)

theorem isPrefixOf_cons_cons (d c : Char) (p' t : Str) :
    (d :: p').isPrefixOf (c :: t) = (d == c && p'.isPrefixOf t) := rfl

theorem wordOccursFrom_dropWhile_space {d : Char} {p' l : Str} {prev : Bool}
    (hd : isWordChar d = true)
    (h : wordOccursFrom (d :: p') prev l = true) :
    wordOccursFrom (d :: p') false (l.dropWhile pyIsSpace) = true := by
  induction l generalizing prev with
  | nil => rw [wordOccursFrom] at h; exact absurd h (by simp)
  | cons c t ih =>
    by_cases hc : pyIsSpace c = true
    · rw [List.dropWhile_cons_of_pos hc]
      rw [wordOccursFrom] at h
      have hdc : (d == c) = false := by
        by_contra hx
        have hdc2 : d = c := by
          revert hx; cases he : (d == c) <;> simp_all
        rw [hdc2, not_word_of_space hc] at hd
        exact absurd hd (by simp)
      rw [isPrefixOf_cons_cons, hdc] at h
      simp only [Bool.false_and, Bool.and_false, Bool.false_or] at h
      exact ih h
    · rw [List.dropWhile_cons_of_neg hc]
      exact wordOccursFrom_of_prev h

theorem prefix_append_of_classes {W : Char → Bool} {p x sp : Str}
    (hp : ∀ c ∈ p, W c = true) (hsp : ∀ c ∈ sp, W c = false)
    (h : p <+: x ++ sp) : p <+: x := by
  induction p generalizing x with
  | nil => exact List.nil_prefix
  | cons d p' ih =>
    cases x with
    | nil =>
      rw [List.nil_append] at h
      cases sp with
      | nil => simp at h
      | cons e w =>
        rcases List.cons_prefix_cons.mp h with ⟨h1, _⟩
        have hmem : d ∈ e :: w := by rw [h1]; exact List.mem_cons_self e w
        have h2 := hsp d hmem
        have h3 := hp d (List.mem_cons_self d p')
        rw [h3] at h2
        exact absurd h2 (by simp)
    | cons e x' =>
      rcases List.cons_prefix_cons.mp h with ⟨h1, h2⟩
      exact List.cons_prefix_cons.mpr
        ⟨h1, ih (fun c hc => hp c (List.mem_cons_of_mem _ hc)) h2⟩

theorem wordOccursFrom_all_space {d : Char} {p' sp : Str} {prev : Bool}
    (hd : isWordChar d = true)
    (hsp : ∀ c ∈ sp, pyIsSpace c = true) :
    wordOccursFrom (d :: p') prev sp = false := by
  induction sp generalizing prev with
  | nil => rw [wordOccursFrom]
  | cons c t ih =>
    rw [wordOccursFrom]
    have hc := hsp c (List.mem_cons_self c t)
    have hdc : (d == c) = false := by
      by_contra hx
      have hdc2 : d = c := by
        revert hx; cases he : (d == c) <;> simp_all
      rw [hdc2, not_word_of_space hc] at hd
      exact absurd hd (by simp)
    rw [isPrefixOf_cons_cons, hdc]
    simp only [Bool.false_and, Bool.and_false, Bool.false_or]
    exact ih (fun e he => hsp e (List.mem_cons_of_mem _ he))

theorem wordOccursFrom_append_space {d : Char} {p' x sp : Str} {prev : Bool}
    (hw : ∀ c ∈ (d :: p'), isWordChar c = true)
    (hsp : ∀ c ∈ sp, pyIsSpace c = true)
    (h : wordOccursFrom (d :: p') prev (x ++ sp) = true) :
    wordOccursFrom (d :: p') prev x = true := by
  induction x generalizing prev with
  | nil =>
    rw [List.nil_append] at h
    rw [wordOccursFrom_all_space (hw d (List.mem_cons_self d p')) hsp] at h
    exact absurd h (by simp)
  | cons c t ih =>
    rw [List.cons_append, wordOccursFrom] at h
    rw [wordOccursFrom]
    rcases (Bool.or_eq_true _ _).mp h with h1 | h2
    · rcases (Bool.and_eq_true _ _).mp h1 with ⟨h1', hb⟩
      rcases (Bool.and_eq_true _ _).mp h1' with ⟨hprev, hpre⟩
      have hpre2 : (d :: p') <+: (c :: t) ++ sp := List.isPrefixOf_iff_prefix.mp hpre
      have hpre' : (d :: p') <+: (c :: t) :=
        prefix_append_of_classes (W := isWordChar) hw
          (fun e he => not_word_of_space (hsp e he)) hpre2
      have hlen : (d :: p').length ≤ (c :: t).length := hpre'.length_le
      have hb2 : boundaryAfter (((c :: t) ++ sp).drop (d :: p').length) = true := hb
      rw [List.drop_append_eq_append_drop, Nat.sub_eq_zero_of_le hlen,
        List.drop_zero] at hb2
      have hb' : boundaryAfter ((c :: t).drop (d :: p').length) = true := by
        cases hr : (c :: t).drop (d :: p').length with
        | nil => rfl
        | cons e r' =>
          rw [hr] at hb2
          exact hb2
      refine (Bool.or_eq_true _ _).mpr (Or.inl ?_)
      have hpreb : (d :: p').isPrefixOf (c :: t) = true :=
        List.isPrefixOf_iff_prefix.mpr hpre'
      have hb'' : boundaryAfter (t.drop p'.length) = true := by simpa using hb'
      simp [hprev, hpreb, hb'']
    · exact (Bool.or_eq_true _ _).mpr (Or.inr (ih h2))

theorem wordOccurs_pyStrip {hay : Str} {d : Char} {p' : Str}
    (hw : ∀ c ∈ (d :: p'), isWordChar c = true)
    (h : wordOccurs hay (d :: p') = true) :
    wordOccurs (pyStrip hay) (d :: p') = true := by
  rw [wordOccurs] at h ⊢
  rw [pyStrip, pyLstrip, pyRstrip]
  have h1 : wordOccursFrom (d :: p') false (hay.dropWhile pyIsSpace) = true :=
    wordOccursFrom_dropWhile_space (hw d (List.mem_cons_self d p')) h
  have hdecomp :
      (hay.dropWhile pyIsSpace).rdropWhile pyIsSpace ++
        (hay.dropWhile pyIsSpace).rtakeWhile pyIsSpace = hay.dropWhile pyIsSpace :=
    rdropWhile_append_rtakeWhile pyIsSpace (hay.dropWhile pyIsSpace)
  have h2 : wordOccursFrom (d :: p') false
      ((hay.dropWhile pyIsSpace).rdropWhile pyIsSpace ++
        (hay.dropWhile pyIsSpace).rtakeWhile pyIsSpace) = true := by
    rw [hdecomp]; exact h1
  exact wordOccursFrom_append_space hw (fun c hc => List.mem_rtakeWhile_imp hc) h2

theorem countSubstr_pos_of_infixOf {l p : Str} (hp : p ≠ []) (h : p <:+: l) :
    0 < countSubstr l p := by
  rcases h with ⟨a, b, rfl⟩
  induction a with
  | nil =>
    cases p with
    | nil => exact absurd rfl hp
    | cons d p' =>
      rw [List.nil_append, List.cons_append, countSubstr_cons]
      have hb : (d :: p').isPrefixOf (d :: (p' ++ b)) = true := by
        rw [List.isPrefixOf_iff_prefix]
        exact List.cons_prefix_cons.mpr ⟨rfl, p'.prefix_append b⟩
      rw [hb]
      simp
  | cons c t ih =>
    simp only [List.cons_append, countSubstr_cons]
    simp only [List.append_assoc] at ih ⊢
    omega

theorem infix_of_countSubstr_pos {l p : Str} (h : 0 < countSubstr l p) :
    p <:+: l := by
  induction l with
  | nil => rw [countSubstr] at h; omega
  | cons c t ih =>
    rw [countSubstr_cons] at h
    by_cases hb : p.isPrefixOf (c :: t) = true
    · exact (List.isPrefixOf_iff_prefix.mp hb).isInfix
    · rw [Bool.not_eq_true] at hb
      rw [hb] at h
      simp only [Bool.false_eq_true, if_false, Nat.zero_add] at h
      exact List.infix_cons_iff.mpr (Or.inr (ih h))

theorem space_notin_of_nospace {p : Str} (hp : p.all (fun c => !pyIsSpace c) = true) :
    ∀ c, pyIsSpace c = true → c ∉ p := by
  intro c hc hmem
  have := List.all_eq_true.mp hp c hmem
  rw [hc] at this
  exact absurd this (by simp)

theorem countSubstr_pyStrip {l p : Str} (hp : p ≠ [])
    (hps : p.all (fun c => !pyIsSpace c) = true) :
    countSubstr (pyStrip l) p = countSubstr l p := by
  rw [pyStrip, pyLstrip, pyRstrip,
    countSubstr_rdropWhile hp (space_notin_of_nospace hps),
    countSubstr_dropWhile hp (space_notin_of_nospace hps)]

theorem containsSubstr_pyStrip {l p : Str} (hp : p ≠ [])
    (hps : p.all (fun c => !pyIsSpace c) = true)
    (h : containsSubstr l p = true) : containsSubstr (pyStrip l) p = true := by
  rw [containsSubstr_iff] at h ⊢
  have h1 := countSubstr_pos_of_infixOf hp h
  rw [← countSubstr_pyStrip hp hps] at h1
  exact infix_of_countSubstr_pos h1


theorem parseIdent_parts {l idt rest : Str}
    (h : SQLGuard.parseIdent l = some (idt, rest)) : idt <+: l ∧ rest <:+ l := by
  rw [SQLGuard.parseIdent.eq_def] at h
  split at h
  · exact absurd h (by simp)
  · rename_i c t
    split at h
    · have h' := h
      simp only [Option.some.injEq, Prod.mk.injEq] at h'
      obtain ⟨h1, h2⟩ := h'
      constructor
      · rw [← h1]
        exact List.cons_prefix_cons.mpr ⟨rfl, List.takeWhile_prefix isWordChar⟩
      · rw [← h2]
        exact (List.dropWhile_suffix isWordChar).trans (List.suffix_cons c t)
    · exact absurd h (by simp)

theorem parseFromTail_parts {r1 tbl r2 : Str}
    (h : SQLGuard.parseFromTail r1 = some (tbl, r2)) : tbl <:+: r1 ∧ r2 <:+ r1 := by
  rw [SQLGuard.parseFromTail.eq_def] at h
  split at h
  · rename_i c t
    split at h
    · obtain ⟨h1, h2⟩ := parseIdent_parts h
      have hsuf : t.dropWhile pyIsSpace <:+ c :: t :=
        (List.dropWhile_suffix pyIsSpace).trans (List.suffix_cons c t)
      exact ⟨h1.isInfix.trans hsuf.isInfix, h2.trans hsuf⟩
    · exact absurd h (by simp)
  · exact absurd h (by simp)

theorem parseAsAlias_infixOf {r2 a : Str}
    (h : SQLGuard.parseAsAlias r2 = some a) : a <:+: r2 := by
  rw [SQLGuard.parseAsAlias.eq_def] at h
  split at h
  · rename_i c2 t2
    split at h
    · split at h
      · split at h
        · rename_i c3 t3 hr4
          split at h
          · split at h
            · rename_i pr a1 ra hpi
              have ha : a1 = a := by simpa using h
              have hp1 := (parseIdent_parts hpi).1
              have hs1 : t3.dropWhile pyIsSpace <:+ c3 :: t3 :=
                (List.dropWhile_suffix pyIsSpace).trans (List.suffix_cons c3 t3)
              have hs2 : c3 :: t3 <:+ t2.dropWhile pyIsSpace := by
                rw [← hr4]
                exact List.drop_suffix 2 _
              have hs3 : t2.dropWhile pyIsSpace <:+ c2 :: t2 :=
                (List.dropWhile_suffix pyIsSpace).trans (List.suffix_cons c2 t2)
              rw [← ha]
              exact hp1.isInfix.trans (((hs1.trans hs2).trans hs3).isInfix)
            · exact absurd h (by simp)
          · exact absurd h (by simp)
        · exact absurd h (by simp)
      · exact absurd h (by simp)
    · exact absurd h (by simp)
  · exact absurd h (by simp)

theorem parseFromAt_infixOf {l : Str} {tbl : Str} {al : Option Str}
    (h : SQLGuard.parseFromAt l = some (tbl, al)) :
    tbl <:+: l ∧ ∀ a, al = some a → a <:+: l := by
  rw [SQLGuard.parseFromAt] at h
  split at h
  · split at h
    · rename_i pr tbl1 r2 hft
      have h' := h
      simp only [Option.some.injEq, Prod.mk.injEq] at h'
      obtain ⟨h1, h2⟩ := h'
      obtain ⟨hi1, hi2⟩ := parseFromTail_parts hft
      have hdrop : l.drop 4 <:+ l := List.drop_suffix 4 l
      constructor
      · rw [← h1]
        exact hi1.trans hdrop.isInfix
      · intro a ha
        rw [← h2] at ha
        exact (parseAsAlias_infixOf ha).trans (hi2.trans hdrop).isInfix
    · exact absurd h (by simp)
  · exact absurd h (by simp)

theorem findFromClause_infixOf {sql : Str} {tbl : Str} {al : Option Str}
    (h : SQLGuard.findFromClause sql = some (tbl, al)) :
    tbl <:+: sql ∧ ∀ a, al = some a → a <:+: sql := by
  induction sql with
  | nil => rw [SQLGuard.findFromClause] at h; exact absurd h (by simp)
  | cons c t ih =>
    rw [SQLGuard.findFromClause] at h
    split at h
    · rename_i r hp
      have hr : r = (tbl, al) := by simpa using h
      rw [hr] at hp
      exact parseFromAt_infixOf hp
    · rename_i hp
      have := ih h
      exact ⟨List.infix_cons_iff.mpr (Or.inr this.1),
        fun a ha => List.infix_cons_iff.mpr (Or.inr (this.2 a ha))⟩

theorem enfAlias_infixOf {sql a : Str} (h : SQLGuard.enfAlias sql = some a) :
    a <:+: sql := by
  rw [SQLGuard.enfAlias] at h
  split at h
  · rename_i tbl a1 hf
    have ha : a1 = a := by simpa using h
    rw [← ha]
    exact (findFromClause_infixOf hf).2 a1 rfl
  · rename_i tbl hf
    have ha : tbl = a := by simpa using h
    rw [← ha]
    exact (findFromClause_infixOf hf).1
  · exact absurd h (by simp)

theorem except_bind_ok {ε α β : Type} (a : α) (f : α → Except ε β) :
    (Except.ok a >>= f) = f a := rfl

theorem except_bind_err {ε α β : Type} (e : ε) (f : α → Except ε β) :
    ((Except.error e : Except ε α) >>= f) = .error e := rfl

theorem forbidden_keywords_shape :
    ∀ x ∈ SQLGuard.FORBIDDEN_KEYWORDS, ¬ x = [] ∧ ∀ c ∈ x, isWordChar c = true := by
  decide

theorem validate_ok_schema {g : SQLGuard} {sql : Str}
    (h : g.validate sql = .ok ()) :
    SQLGuard.check_schema_allowlist g (pyStrip sql) = .ok () := by
  rw [SQLGuard.validate] at h
  split at h
  · exact absurd h (by simp)
  · cases hcf : SQLGuard.check_forbidden_keywords (pyStrip sql) with
    | error e => rw [hcf, except_bind_err] at h; exact absurd h (by simp)
    | ok u =>
      rw [hcf, except_bind_ok] at h
      cases hcs : SQLGuard.check_schema_allowlist g (pyStrip sql) with
      | error e => rw [hcs, except_bind_err] at h; exact absurd h (by simp)
      | ok u2 => cases u2; rfl

theorem mem_remaining_not_keyword {sql id : Str}
    (h : id ∈ SQLGuard.remainingIdentifiers sql) : ¬ id ∈ SQLGuard.keywordSet := by
  rw [SQLGuard.remainingIdentifiers] at h
  simp only [SQLGuard.listDiff, List.mem_filter, decide_eq_true_eq] at h
  exact h.2

theorem smallWordSet_subset_keywordSet :
    ∀ x ∈ SQLGuard.smallWordSet, x ∈ SQLGuard.keywordSet := by decide

theorem genLoopRun_attempts_le (st : ActiveState) (env : GenEnv) :
    (genLoopRun st env).attempts ≤ 2 := by
  cases henv1 : env.llm 1 with
  | none =>
    cases henv2 : env.llm 2 with
    | none => simp [genLoopRun, genLoop, henv1, henv2]
    | some resp2 =>
      cases hval2 : st.guard.validate (candidateOf st resp2) with
      | ok u => cases u; simp [genLoopRun, genLoop, henv1, henv2, hval2]
      | error er => simp [genLoopRun, genLoop, henv1, henv2, hval2]
  | some resp1 =>
    cases hval1 : st.guard.validate (candidateOf st resp1) with
    | ok u => cases u; simp [genLoopRun, genLoop, henv1, hval1]
    | error er =>
      cases henv2 : env.llm 2 with
      | none => simp [genLoopRun, genLoop, henv1, hval1, henv2]
      | some resp2 =>
        cases hval2 : st.guard.validate (candidateOf st resp2) with
        | ok u => cases u; simp [genLoopRun, genLoop, henv1, hval1, henv2, hval2]
        | error er2 => simp [genLoopRun, genLoop, henv1, hval1, henv2, hval2]

theorem genLoopRun_pass1 (st : ActiveState) (env : GenEnv)
    (h : attemptPasses st env 1) :
    (genLoopRun st env).attempts = 1 ∧ (genLoopRun st env).sql.isSome = true := by
  obtain ⟨resp1, henv1, hval1⟩ := h
  simp [genLoopRun, genLoop, henv1, hval1]

theorem genLoopRun_pass2 (st : ActiveState) (env : GenEnv)
    (h1 : ¬ attemptPasses st env 1) (h2 : attemptPasses st env 2) :
    (genLoopRun st env).attempts = 2 ∧ (genLoopRun st env).sql.isSome = true := by
  obtain ⟨resp2, henv2, hval2⟩ := h2
  cases henv1 : env.llm 1 with
  | none => simp [genLoopRun, genLoop, henv1, henv2, hval2]
  | some resp1 =>
    cases hval1 : st.guard.validate (candidateOf st resp1) with
    | ok u => cases u; exact absurd ⟨resp1, henv1, hval1⟩ h1
    | error er => simp [genLoopRun, genLoop, henv1, hval1, henv2, hval2]

theorem genLoopRun_fail (st : ActiveState) (env : GenEnv)
    (h1 : ¬ attemptPasses st env 1) (h2 : ¬ attemptPasses st env 2) :
    (genLoopRun st env).attempts = 2 ∧ (genLoopRun st env).sql = none := by
  cases henv1 : env.llm 1 with
  | none =>
    cases henv2 : env.llm 2 with
    | none => simp [genLoopRun, genLoop, henv1, henv2]
    | some resp2 =>
      cases hval2 : st.guard.validate (candidateOf st resp2) with
      | ok u => cases u; exact absurd ⟨resp2, henv2, hval2⟩ h2
      | error er => simp [genLoopRun, genLoop, henv1, henv2, hval2]
  | some resp1 =>
    cases hval1 : st.guard.validate (candidateOf st resp1) with
    | ok u => cases u; exact absurd ⟨resp1, henv1, hval1⟩ h1
    | error er =>
      cases henv2 : env.llm 2 with
      | none => simp [genLoopRun, genLoop, henv1, hval1, henv2]
      | some resp2 =>
        cases hval2 : st.guard.validate (candidateOf st resp2) with
        | ok u => cases u; exact absurd ⟨resp2, henv2, hval2⟩ h2
        | error er2 => simp [genLoopRun, genLoop, henv1, hval1, henv2, hval2]

/-! ## The claims -/

/-- C9 counterexample: for the goal text `"revenue last 7 days"` the heuristic
Plan Builder produces a 7-step pipeline, not the claimed 6-step one. -/
theorem C9_counterexample :
    (plan_goal none (str "revenue last 7 days")).2.length = 7 ∧
    ¬ (plan_goal none (str "revenue last 7 days")).2.length = 6 := by
  decide

/-- C9 (amended): for the goal text `"revenue last 7 days"` the heuristic Plan
Builder produces exactly the 7-step base pipeline — schema retrieval, kb
retrieval, example retrieval, SQL generation, SQL verification, SQL execution,
summary writing — with no `anomaly_scan` step, and its final step is
`summary_writer`. -/
theorem C9_heuristic_base_pipeline :
    (plan_goal none (str "revenue last 7 days")).2.map PlanItem.tool =
      [str "schema_retrieval", str "kb_retrieval", str "example_retrieval",
       str "sql_generation", str "sql_verifier", str "sql_execution",
       str "summary_writer"] ∧
    (∀ item ∈ (plan_goal none (str "revenue last 7 days")).2,
      ¬ item.tool = str "anomaly_scan") ∧
    ((plan_goal none (str "revenue last 7 days")).2.map PlanItem.tool).getLast? =
      some (str "summary_writer") := by
  decide

/-- C6: whenever a candidate statement contains a forbidden keyword
(`INSERT`, `UPDATE`, `DELETE`, `DROP`, …) as a whole word — in any letter
case, since the scan upper-cases the statement, and with any surrounding
whitespace — `SQLGuard.validate` raises a guard error. -/
theorem C6_forbidden_keyword_rejected (g : SQLGuard) (s kw : Str)
    (hkw : kw ∈ SQLGuard.FORBIDDEN_KEYWORDS)
    (hocc : wordOccurs (pyUpper s) kw = true) :
    ∃ e, g.validate s = .error e := by
  rw [SQLGuard.validate]
  by_cases hsel : (str "SELECT").isPrefixOf (pyLstrip (pyUpper (pyStrip s))) = true
  case neg =>
    rw [if_pos (by simpa using hsel)]
    exact ⟨.notSelect, rfl⟩
  case pos =>
    rw [if_neg (by simpa using hsel)]
    obtain ⟨hne, hw⟩ := forbidden_keywords_shape kw hkw
    cases hkww : kw with
    | nil => exact absurd hkww hne
    | cons d p' =>
      rw [hkww] at hocc hw
      have hstrip : wordOccurs (pyStrip (pyUpper s)) (d :: p') = true :=
        wordOccurs_pyStrip hw hocc
      rw [← pyUpper_pyStrip] at hstrip
      have hsome : ∃ x, x ∈ SQLGuard.FORBIDDEN_KEYWORDS ∧
          wordOccurs (pyUpper (pyStrip s)) x = true :=
        ⟨kw, hkw, by rw [hkww]; exact hstrip⟩
      have hfind : (SQLGuard.FORBIDDEN_KEYWORDS.find?
          (fun kw2 => wordOccurs (pyUpper (pyStrip s)) kw2)).isSome := by
        rw [List.find?_isSome]
        exact hsome
      cases hf : SQLGuard.FORBIDDEN_KEYWORDS.find?
          (fun kw2 => wordOccurs (pyUpper (pyStrip s)) kw2) with
      | none => rw [hf] at hfind; exact absurd hfind (by simp)
      | some kw2 =>
        refine ⟨.forbiddenKeyword kw2, ?_⟩
        have hcf : SQLGuard.check_forbidden_keywords (pyStrip s) =
            .error (.forbiddenKeyword kw2) := by
          rw [SQLGuard.check_forbidden_keywords, hf]
        rw [hcf, except_bind_err]

/-- C6 witness: the guard rejects `DROP TABLE sales_transactions` (the spec's
own example). -/
theorem C6_witness :
    (str "DROP") ∈ SQLGuard.FORBIDDEN_KEYWORDS ∧
    wordOccurs (pyUpper (str "DROP TABLE sales_transactions")) (str "DROP") = true ∧
    ∃ e, SQLGuard.validate
      { allowed_tables := [str "sales_transactions"], allowed_columns := [str "amount"] }
      (str "DROP TABLE sales_transactions") = .error e :=
  ⟨by decide, by decide,
    C6_forbidden_keyword_rejected
      { allowed_tables := [str "sales_transactions"], allowed_columns := [str "amount"] }
      (str "DROP TABLE sales_transactions") (str "DROP") (by decide) (by decide)⟩

/-- The `disallowed` set computed by `_check_schema_allowlist`. -/
def schemaDisallowed (g : SQLGuard) (sql : Str) : List Str :=
  SQLGuard.listDiff
    (SQLGuard.listDiff
      (SQLGuard.listDiff
        (SQLGuard.listDiff (SQLGuard.remainingIdentifiers sql) g.allowed_tables)
        g.allowed_columns)
      SQLGuard.smallWordSet)
    SQLGuard.EXTRA_ALLOWED_IDENTIFIERS

theorem check_schema_eq (g : SQLGuard) (sql : Str) :
    SQLGuard.check_schema_allowlist g sql =
      (if schemaDisallowed g sql = [] then .ok ()
       else .error (.disallowedIdentifiers (schemaDisallowed g sql))) := rfl

theorem mem_schemaDisallowed {g : SQLGuard} {sql id : Str} :
    id ∈ schemaDisallowed g sql ↔
      (id ∈ SQLGuard.remainingIdentifiers sql ∧ ¬ id ∈ g.allowed_tables ∧
        ¬ id ∈ g.allowed_columns ∧ ¬ id ∈ SQLGuard.smallWordSet ∧
        ¬ id ∈ SQLGuard.EXTRA_ALLOWED_IDENTIFIERS) := by
  simp only [schemaDisallowed, SQLGuard.listDiff, List.mem_filter,
    decide_eq_true_eq]
  tauto

/-- C4 counterexample: with allowed tables `{t}` and no allowed columns, the
guard accepts `SELECT sale_date FROM t` although the bare identifier
`sale_date` — which survives keyword and alias stripping — belongs to neither
the allowed table set nor the allowed column set (it is only in the hard-coded
`EXTRA_ALLOWED_IDENTIFIERS`). -/
theorem C4_counterexample :
    SQLGuard.validate { allowed_tables := [str "t"], allowed_columns := [] }
      (str "SELECT sale_date FROM t") = .ok () ∧
    (str "sale_date") ∈
      SQLGuard.remainingIdentifiers (pyStrip (str "SELECT sale_date FROM t")) ∧
    ¬ (str "sale_date") ∈ [str "t"] ∧
    ¬ (str "sale_date") ∈ ([] : List Str) := by
  decide

/-- C4 (amended): for every statement accepted by `SQLGuard.validate`, every
bare identifier remaining after stripping SQL keywords, known functions and
aliases belongs to the allowed table set, the allowed column set, **or the
fixed `EXTRA_ALLOWED_IDENTIFIERS` set**; conversely, when some such
identifier lies outside all three sets, `validate` fails — and provided the
earlier SELECT and forbidden-keyword checks pass, it fails listing exactly
the offending identifiers. -/
theorem C4_allowlist_characterization (g : SQLGuard) (sql : Str) :
    (g.validate sql = .ok () →
      ∀ id ∈ SQLGuard.remainingIdentifiers (pyStrip sql),
        id ∈ g.allowed_tables ∨ id ∈ g.allowed_columns ∨
          id ∈ SQLGuard.EXTRA_ALLOWED_IDENTIFIERS) ∧
    ((∃ id ∈ SQLGuard.remainingIdentifiers (pyStrip sql),
        ¬ id ∈ g.allowed_tables ∧ ¬ id ∈ g.allowed_columns ∧
        ¬ id ∈ SQLGuard.EXTRA_ALLOWED_IDENTIFIERS) →
      (∃ e, g.validate sql = .error e) ∧
      ((str "SELECT").isPrefixOf (pyLstrip (pyUpper (pyStrip sql))) = true →
        SQLGuard.check_forbidden_keywords (pyStrip sql) = .ok () →
        ∃ ids, g.validate sql = .error (.disallowedIdentifiers ids) ∧
          ∀ id, id ∈ ids ↔
            (id ∈ SQLGuard.remainingIdentifiers (pyStrip sql) ∧
             ¬ id ∈ g.allowed_tables ∧ ¬ id ∈ g.allowed_columns ∧
             ¬ id ∈ SQLGuard.EXTRA_ALLOWED_IDENTIFIERS))) := by
  constructor
  · intro hok id hid
    by_contra hcon
    push_neg at hcon
    obtain ⟨h1, h2, h3⟩ := hcon
    have hsmall : ¬ id ∈ SQLGuard.smallWordSet :=
      fun hs => mem_remaining_not_keyword hid (smallWordSet_subset_keywordSet id hs)
    have hmem : id ∈ schemaDisallowed g (pyStrip sql) :=
      mem_schemaDisallowed.mpr ⟨hid, h1, h2, hsmall, h3⟩
    have hce := validate_ok_schema hok
    have hD : schemaDisallowed g (pyStrip sql) = [] := by
      by_contra hne
      rw [check_schema_eq, if_neg hne] at hce
      exact absurd hce (by simp)
    rw [hD] at hmem
    exact absurd hmem (List.not_mem_nil id)
  · rintro ⟨id, hid, h1, h2, h3⟩
    have hsmall : ¬ id ∈ SQLGuard.smallWordSet :=
      fun hs => mem_remaining_not_keyword hid (smallWordSet_subset_keywordSet id hs)
    have hmemD : id ∈ schemaDisallowed g (pyStrip sql) :=
      mem_schemaDisallowed.mpr ⟨hid, h1, h2, hsmall, h3⟩
    have hDne : ¬ schemaDisallowed g (pyStrip sql) = [] := by
      intro hz
      rw [hz] at hmemD
      exact absurd hmemD (List.not_mem_nil id)
    have hcs : SQLGuard.check_schema_allowlist g (pyStrip sql) =
        .error (.disallowedIdentifiers (schemaDisallowed g (pyStrip sql))) := by
      rw [check_schema_eq, if_neg hDne]
    constructor
    · rw [SQLGuard.validate]
      by_cases hsel : (str "SELECT").isPrefixOf (pyLstrip (pyUpper (pyStrip sql))) = true
      case neg =>
        rw [if_pos (by simpa using hsel)]
        exact ⟨.notSelect, rfl⟩
      case pos =>
        rw [if_neg (by simpa using hsel)]
        cases hcf : SQLGuard.check_forbidden_keywords (pyStrip sql) with
        | error e => rw [except_bind_err]; exact ⟨e, rfl⟩
        | ok u =>
          cases u
          rw [except_bind_ok, hcs, except_bind_err]
          exact ⟨.disallowedIdentifiers (schemaDisallowed g (pyStrip sql)), rfl⟩
    · intro hsel hforb
      refine ⟨schemaDisallowed g (pyStrip sql), ?_, ?_⟩
      · rw [SQLGuard.validate, if_neg (by simpa using hsel), hforb,
          except_bind_ok, hcs, except_bind_err]
      · intro id2
        rw [mem_schemaDisallowed]
        constructor
        · rintro ⟨a, b, c, _, e⟩
          exact ⟨a, b, c, e⟩
        · rintro ⟨a, b, c, e⟩
          exact ⟨a, b, c,
            fun hs => mem_remaining_not_keyword a (smallWordSet_subset_keywordSet id2 hs), e⟩

/-- C4 witness: with allowed tables `{t}` and columns `{a}`, the statement
`SELECT bogus FROM t` has the out-of-allowlist identifier `bogus`, and
`validate` rejects it listing exactly `bogus`. -/
theorem C4_witness :
    (∃ id ∈ SQLGuard.remainingIdentifiers (pyStrip (str "SELECT bogus FROM t")),
      ¬ id ∈ [str "t"] ∧ ¬ id ∈ [str "a"] ∧
      ¬ id ∈ SQLGuard.EXTRA_ALLOWED_IDENTIFIERS) ∧
    (∃ e, SQLGuard.validate { allowed_tables := [str "t"], allowed_columns := [str "a"] }
      (str "SELECT bogus FROM t") = .error e) :=
  ⟨⟨str "bogus", by decide, by decide, by decide, by decide⟩,
    ((C4_allowlist_characterization
      { allowed_tables := [str "t"], allowed_columns := [str "a"] }
      (str "SELECT bogus FROM t")).2
      ⟨str "bogus", by decide, by decide, by decide, by decide⟩).1⟩

theorem enforce_eq_of_no_occurrence {sql : Str}
    (h : ¬ containsSubstr (pyLower sql) (str "dataset_id") = true) :
    SQLGuard.enforce_dataset_filter sql (str "dataset_id") =
      .ok (pyStrip (SQLGuard.enfBefore sql ++
        (if SQLGuard.enfHasWhere sql then str " AND " else str " WHERE ") ++
        SQLGuard.enfPredicate sql (str "dataset_id") ++
        ' ' :: SQLGuard.enfAfter sql)) := by
  have hinf : ¬ (str "dataset_id") <:+: pyLower sql := by
    intro hx
    exact h (containsSubstr_iff.mpr hx)
  have hdsl : pyLower (str "dataset_id") = str "dataset_id" := by decide
  have hlit : SQLGuard.hasLiteralParamEq sql (str "dataset_id") = false := by
    rw [SQLGuard.hasLiteralParamEq, hdsl]
    by_contra hx
    rw [Bool.not_eq_false] at hx
    exact hinf (literalEqFrom_infixOf hx)
  have hword : wordOccurs (pyLower sql) (pyLower (str "dataset_id")) = false := by
    rw [hdsl]
    by_contra hx
    rw [Bool.not_eq_false] at hx
    exact hinf (wordOccursFrom_infixOf hx)
  rw [SQLGuard.enforce_dataset_filter, hlit, hword]
  simp

theorem enfHasWhere_eq_false_of_no_padded_where {s : Str}
    (hw : ¬ containsSubstr (' ' :: pyLower s ++ [' ']) (str " where ") = true) :
    SQLGuard.enfHasWhere s = false := by
  rw [SQLGuard.enfHasWhere]
  have h1 : containsSubstr (pyLower s) (str " where ") = false := by
    by_contra hx
    rw [Bool.not_eq_false, containsSubstr_iff] at hx
    refine hw (containsSubstr_iff.mpr ?_)
    have hmid : pyLower s <:+: ' ' :: pyLower s ++ [' '] := ⟨[' '], [' '], rfl⟩
    exact hx.trans hmid
  have h2 : (str "where ").isPrefixOf (pyLower s) = false := by
    by_contra hx
    rw [Bool.not_eq_false, List.isPrefixOf_iff_prefix] at hx
    refine hw (containsSubstr_iff.mpr ?_)
    have hpref : (str " where ") <+: ' ' :: pyLower s ++ [' '] := by
      have hsp : str " where " = ' ' :: str "where " := by decide
      rw [hsp]
      have hcons : ' ' :: pyLower s ++ [' '] = ' ' :: (pyLower s ++ [' ']) := rfl
      rw [hcons]
      exact List.cons_prefix_cons.mpr ⟨rfl, hx.trans ((pyLower s).prefix_append [' '])⟩
    exact hpref.isInfix
  rw [h1, h2]
  rfl

/-- C10 counterexample: the statement
`select region, sum(amount) from sales group by region limit 10` lacks a
`WHERE` clause, yet the Risk Assessor does not flag it (it has `GROUP BY` and
`LIMIT`), so the `sql_execution` handler runs it instead of blocking. -/
theorem C10_counterexample :
    ¬ containsSubstr
      (pyLower (str "select region, sum(amount) from sales group by region limit 10"))
      (str "where") = true ∧
    is_risky_sql (str "select region, sum(amount) from sales group by region limit 10") = false ∧
    run_step_sql_execution
      { outcome := fun _ => .ok { payload := 7 }, token := fun _ => str "tok" }
      (str "select region, sum(amount) from sales group by region limit 10")
      none false 1 =
      .ok { requiresApproval := false, approvalToken := none, payload := 7 } := by
  decide

/-- C10 (amended): the Risk Assessor judges the candidate SQL before the
dataset-scoping filter is injected, so every statement lacking **both** a
space-delimited `WHERE` clause and a `GROUP BY` clause is flagged risky and
the `sql_execution` handler blocks it for approval (absent auto-approval) —
even though, when the statement never mentions the scoping parameter,
`enforce_dataset_filter` would have introduced a `WHERE` clause before
execution. -/
theorem C10_risk_assessed_before_scoping (env : RunEnv) (s : Str)
    (ds : Option Str) (order : Nat)
    (hw : ¬ containsSubstr (' ' :: pyLower s ++ [' ']) (str " where ") = true)
    (hg : ¬ containsSubstr (' ' :: pyLower s ++ [' ']) (str " group by ") = true) :
    is_risky_sql s = true ∧
    run_step_sql_execution env s ds false order =
      .ok { requiresApproval := true, approvalToken := some (env.token order) } ∧
    (¬ containsSubstr (pyLower s) (str "dataset_id") = true →
      ∃ sc, SQLGuard.enforce_dataset_filter s (str "dataset_id") = .ok sc ∧
        containsSubstr (pyLower sc) (str "where") = true) := by
  have hrisky : is_risky_sql s = true := by
    rw [is_risky_sql]
    by_cases hnil : s = []
    · rw [if_pos hnil]
    · rw [if_neg hnil]
      by_cases hlim : containsSubstr (' ' :: pyLower s ++ [' ']) (str " limit ") = true
      · rw [if_neg (by simpa using hlim), if_pos ⟨hw, hg⟩]
      · rw [if_pos (by simpa using hlim)]
  refine ⟨hrisky, ?_, ?_⟩
  · rw [run_step_sql_execution.eq_def, if_pos (by rw [hrisky]; rfl)]
  · intro hnd
    refine ⟨_, enforce_eq_of_no_occurrence hnd, ?_⟩
    rw [enfHasWhere_eq_false_of_no_padded_where hw]
    simp only [Bool.false_eq_true, if_false]
    rw [pyLower_pyStrip]
    refine containsSubstr_pyStrip (by decide) (by decide) ?_
    rw [containsSubstr_iff]
    have hin : (str "where") <:+: (str " WHERE ").map pyLowerChar := by decide
    have hmid : (str " WHERE ").map pyLowerChar <:+:
        (SQLGuard.enfBefore s ++ str " WHERE " ++
          SQLGuard.enfPredicate s (str "dataset_id") ++
          ' ' :: SQLGuard.enfAfter s).map pyLowerChar := by
      refine List.IsInfix.map pyLowerChar ?_
      exact ⟨SQLGuard.enfBefore s,
        SQLGuard.enfPredicate s (str "dataset_id") ++ ' ' :: SQLGuard.enfAfter s,
        by simp [List.append_assoc]⟩
    exact hin.trans hmid

/-- C10 witness: `select a from t limit 5` lacks both `WHERE` and `GROUP BY`;
the handler blocks it with the generated token, and the scoping filter would
have introduced a `WHERE`. -/
theorem C10_witness :
    (¬ containsSubstr (' ' :: pyLower (str "select a from t limit 5") ++ [' '])
      (str " where ") = true) ∧
    is_risky_sql (str "select a from t limit 5") = true ∧
    run_step_sql_execution
      { outcome := fun _ => .ok { payload := 3 }, token := fun _ => str "tok9" }
      (str "select a from t limit 5") none false 4 =
      .ok { requiresApproval := true, approvalToken := some (str "tok9") } ∧
    (∃ sc, SQLGuard.enforce_dataset_filter (str "select a from t limit 5")
        (str "dataset_id") = .ok sc ∧
      containsSubstr (pyLower sc) (str "where") = true) := by
  refine ⟨by decide, ?_⟩
  have h := C10_risk_assessed_before_scoping
    { outcome := fun _ => .ok { payload := 3 }, token := fun _ => str "tok9" }
    (str "select a from t limit 5") none 4 (by decide) (by decide)
  exact ⟨h.1, h.2.1, h.2.2 (by decide)⟩

theorem enfBefore_infixOf (sql : Str) : SQLGuard.enfBefore sql <:+: sql := by
  rw [SQLGuard.enfBefore]
  cases hr : rfindSubstr (pyLower sql) (str "limit") with
  | some i =>
    exact ((List.rdropWhile_prefix _ _).trans (List.take_prefix i sql)).isInfix
  | none => exact List.infix_refl sql

theorem enfAfter_infixOf (sql : Str) : SQLGuard.enfAfter sql <:+: sql := by
  rw [SQLGuard.enfAfter]
  cases hr : rfindSubstr (pyLower sql) (str "limit") with
  | some i => exact (List.drop_suffix i sql).isInfix
  | none => exact List.nil_infix

theorem count_pyLower_zero {x sql : Str} (hinf : x <:+: sql)
    (h : ¬ containsSubstr (pyLower sql) (str "dataset_id") = true) :
    countSubstr (x.map pyLowerChar) (str "dataset_id") = 0 :=
  countSubstr_eq_zero_of_not_infix
    (fun hx => h (containsSubstr_iff.mpr (hx.trans (hinf.map pyLowerChar))))

theorem count_pred_after (A2 : Str)
    (hA : countSubstr A2 (str "dataset_id") = 0) :
    countSubstr (str "dataset_id" ++ (str " = :" ++ (str "dataset_id" ++ (' ' :: A2))))
      (str "dataset_id") = 2 := by
  have hd : str "dataset_id" = 'd' :: str "ataset_id" := by decide
  rw [hd] at hA ⊢
  rw [countSubstr_self_append]
  rw [← List.append_assoc]
  have hcat : str "ataset_id" ++ str " = :" = str "ataset_id = :" := by decide
  rw [hcat]
  rw [countSubstr_append_left (by decide : noPartialOverlap (str "ataset_id = :") ('d' :: str "ataset_id") = true)]
  rw [countSubstr_self_append]
  have hcons : str "ataset_id" ++ ' ' :: A2 = (str "ataset_id " ) ++ A2 := by
    have : str "ataset_id " = str "ataset_id" ++ [' '] := by decide
    rw [this, List.append_assoc]
    rfl
  rw [hcons]
  rw [countSubstr_append_left (by decide : noPartialOverlap (str "ataset_id ") ('d' :: str "ataset_id") = true)]
  rw [hA]

theorem count_alias_pred_after (la A2 : Str)
    (hla : countSubstr la (str "dataset_id") = 0)
    (hA : countSubstr A2 (str "dataset_id") = 0) :
    countSubstr (la ++ ('.' :: (str "dataset_id" ++
      (str " = :" ++ (str "dataset_id" ++ (' ' :: A2)))))) (str "dataset_id") = 2 := by
  rw [countSubstr_append_mid (by decide : '.' ∉ str "dataset_id")]
  have hd : str "dataset_id" = 'd' :: str "ataset_id" := by decide
  have hnp : (str "dataset_id").isPrefixOf
      ('.' :: (str "dataset_id" ++ (str " = :" ++ (str "dataset_id" ++ (' ' :: A2))))) = false := by
    rw [hd, isPrefixOf_cons_cons]
    rfl
  rw [countSubstr_cons, hnp]
  rw [hla, count_pred_after A2 hA]
  simp

theorem count_enf_core {sql : Str} (J2 : Str)
    (h : ¬ containsSubstr (pyLower sql) (str "dataset_id") = true)
    (hov : noPartialOverlap (' ' :: J2) (str "dataset_id") = true) :
    countSubstr ((SQLGuard.enfBefore sql).map pyLowerChar ++
      (' ' :: (J2 ++ ((SQLGuard.enfPredicate sql (str "dataset_id")).map pyLowerChar ++
        (' ' :: (SQLGuard.enfAfter sql).map pyLowerChar)))))
      (str "dataset_id") = 2 := by
  have hB : countSubstr ((SQLGuard.enfBefore sql).map pyLowerChar) (str "dataset_id") = 0 :=
    count_pyLower_zero (enfBefore_infixOf sql) h
  have hA : countSubstr ((SQLGuard.enfAfter sql).map pyLowerChar) (str "dataset_id") = 0 :=
    count_pyLower_zero (enfAfter_infixOf sql) h
  rw [countSubstr_append_mid (by decide : ' ' ∉ str "dataset_id")]
  rw [hB]
  rw [← List.cons_append]
  rw [countSubstr_append_left hov]
  have m1 : (str "dataset_id").map pyLowerChar = str "dataset_id" := by decide
  have m2 : (str " = :").map pyLowerChar = str " = :" := by decide
  have m3 : pyLowerChar '.' = '.' := by decide
  cases halias : SQLGuard.enfAlias sql with
  | some a =>
    have hP : (SQLGuard.enfPredicate sql (str "dataset_id")).map pyLowerChar =
        a.map pyLowerChar ++ ('.' :: (str "dataset_id" ++
          (str " = :" ++ str "dataset_id"))) := by
      rw [SQLGuard.enfPredicate, halias]
      simp only [List.map_append, List.map_cons, m1, m2, m3, List.append_assoc,
        List.cons_append]
    rw [hP]
    have hla : countSubstr (a.map pyLowerChar) (str "dataset_id") = 0 :=
      count_pyLower_zero (enfAlias_infixOf halias) h
    have hshape : a.map pyLowerChar ++ ('.' :: (str "dataset_id" ++
          (str " = :" ++ str "dataset_id"))) ++
        (' ' :: (SQLGuard.enfAfter sql).map pyLowerChar) =
        a.map pyLowerChar ++ ('.' :: (str "dataset_id" ++
          (str " = :" ++ (str "dataset_id" ++
            (' ' :: (SQLGuard.enfAfter sql).map pyLowerChar))))) := by
      simp only [List.append_assoc, List.cons_append]
    rw [hshape]
    rw [count_alias_pred_after _ _ hla hA]
  | none =>
    have hP : (SQLGuard.enfPredicate sql (str "dataset_id")).map pyLowerChar =
        str "dataset_id" ++ (str " = :" ++ str "dataset_id") := by
      rw [SQLGuard.enfPredicate, halias]
      simp only [List.map_append, m1, m2, List.append_assoc]
    rw [hP]
    have hshape : str "dataset_id" ++ (str " = :" ++ str "dataset_id") ++
        (' ' :: (SQLGuard.enfAfter sql).map pyLowerChar) =
        str "dataset_id" ++ (str " = :" ++ (str "dataset_id" ++
          (' ' :: (SQLGuard.enfAfter sql).map pyLowerChar))) := by
      simp only [List.append_assoc]
    rw [hshape]
    rw [count_pred_after _ hA]

/-- C5 counterexample: `SELECT a FROM t` contains no occurrence of the scoping
parameter and no literal equality on it, yet the enforced statement contains
`dataset_id` twice (once as the injected column reference, once as the bind
parameter), not "exactly once". -/
theorem C5_counterexample :
    wordOccurs (pyLower (str "SELECT a FROM t")) (str "dataset_id") = false ∧
    SQLGuard.hasLiteralParamEq (str "SELECT a FROM t") (str "dataset_id") = false ∧
    SQLGuard.enforce_dataset_filter (str "SELECT a FROM t") (str "dataset_id") =
      .ok (str "SELECT a FROM t WHERE t.dataset_id = :dataset_id") ∧
    countSubstr (pyLower (str "SELECT a FROM t WHERE t.dataset_id = :dataset_id"))
      (str "dataset_id") = 2 ∧
    ¬ countSubstr (pyLower (str "SELECT a FROM t WHERE t.dataset_id = :dataset_id"))
      (str "dataset_id") = 1 := by
  decide

/-- C5 (amended): for every statement `s` that contains the scoping parameter
name nowhere as a substring, `enforce_dataset_filter(s, "dataset_id")` returns
a statement containing the injected scoping predicate exactly once — so the
parameter name occurs exactly twice, once as the (possibly alias-qualified)
column reference and once as the bind parameter — with the predicate placed
before the last `limit` occurrence when one exists, combined with `AND` when
the statement's lower-cased text contains `" where "` or starts with
`"where "`, and introducing a new `WHERE` otherwise. -/
theorem C5_scoping_injection (sql : Str)
    (h : ¬ containsSubstr (pyLower sql) (str "dataset_id") = true) :
    ∃ sc, SQLGuard.enforce_dataset_filter sql (str "dataset_id") = .ok sc ∧
      countSubstr (pyLower sc) (str "dataset_id") = 2 ∧
      sc = pyStrip (SQLGuard.enfBefore sql ++
        (if SQLGuard.enfHasWhere sql then str " AND " else str " WHERE ") ++
        SQLGuard.enfPredicate sql (str "dataset_id") ++
        ' ' :: SQLGuard.enfAfter sql) ∧
      (∀ i, rfindSubstr (pyLower sql) (str "limit") = some i →
        SQLGuard.enfBefore sql = pyRstrip (sql.take i) ∧
        SQLGuard.enfAfter sql = sql.drop i) ∧
      (rfindSubstr (pyLower sql) (str "limit") = none →
        SQLGuard.enfAfter sql = [] ∧ SQLGuard.enfBefore sql = sql) := by
  refine ⟨_, enforce_eq_of_no_occurrence h, ?_, rfl, ?_, ?_⟩
  · rw [pyLower_pyStrip, countSubstr_pyStrip (by decide) (by decide)]
    by_cases hW : SQLGuard.enfHasWhere sql = true
    · rw [if_pos hW]
      simp only [pyLower, List.map_append, List.map_cons]
      have hAnd : (str " AND ").map pyLowerChar = ' ' :: str "and " := by decide
      have hSp : pyLowerChar ' ' = ' ' := by decide
      rw [hAnd, hSp]
      simp only [List.append_assoc, List.cons_append]
      exact count_enf_core (str "and ") h (by decide)
    · rw [if_neg hW]
      simp only [pyLower, List.map_append, List.map_cons]
      have hWh : (str " WHERE ").map pyLowerChar = ' ' :: str "where " := by decide
      have hSp : pyLowerChar ' ' = ' ' := by decide
      rw [hWh, hSp]
      simp only [List.append_assoc, List.cons_append]
      exact count_enf_core (str "where ") h (by decide)
  · intro i hi
    rw [SQLGuard.enfBefore, SQLGuard.enfAfter, hi]
    exact ⟨rfl, rfl⟩
  · intro hn
    rw [SQLGuard.enfBefore, SQLGuard.enfAfter, hn]
    exact ⟨rfl, rfl⟩

/-- C5 witness: the filter injection on
`SELECT a FROM tbl AS x WHERE a > 1 LIMIT 5`. -/
theorem C5_witness :
    (¬ containsSubstr (pyLower (str "SELECT a FROM tbl AS x WHERE a > 1 LIMIT 5"))
      (str "dataset_id") = true) ∧
    ∃ sc, SQLGuard.enforce_dataset_filter
        (str "SELECT a FROM tbl AS x WHERE a > 1 LIMIT 5") (str "dataset_id") = .ok sc ∧
      countSubstr (pyLower sc) (str "dataset_id") = 2 ∧
      sc = pyStrip (SQLGuard.enfBefore (str "SELECT a FROM tbl AS x WHERE a > 1 LIMIT 5") ++
        (if SQLGuard.enfHasWhere (str "SELECT a FROM tbl AS x WHERE a > 1 LIMIT 5")
         then str " AND " else str " WHERE ") ++
        SQLGuard.enfPredicate (str "SELECT a FROM tbl AS x WHERE a > 1 LIMIT 5")
          (str "dataset_id") ++
        ' ' :: SQLGuard.enfAfter (str "SELECT a FROM tbl AS x WHERE a > 1 LIMIT 5")) ∧
      (∀ i, rfindSubstr (pyLower (str "SELECT a FROM tbl AS x WHERE a > 1 LIMIT 5"))
          (str "limit") = some i →
        SQLGuard.enfBefore (str "SELECT a FROM tbl AS x WHERE a > 1 LIMIT 5") =
          pyRstrip ((str "SELECT a FROM tbl AS x WHERE a > 1 LIMIT 5").take i) ∧
        SQLGuard.enfAfter (str "SELECT a FROM tbl AS x WHERE a > 1 LIMIT 5") =
          (str "SELECT a FROM tbl AS x WHERE a > 1 LIMIT 5").drop i) ∧
      (rfindSubstr (pyLower (str "SELECT a FROM tbl AS x WHERE a > 1 LIMIT 5"))
          (str "limit") = none →
        SQLGuard.enfAfter (str "SELECT a FROM tbl AS x WHERE a > 1 LIMIT 5") = [] ∧
        SQLGuard.enfBefore (str "SELECT a FROM tbl AS x WHERE a > 1 LIMIT 5") =
          str "SELECT a FROM tbl AS x WHERE a > 1 LIMIT 5") :=
  ⟨by decide, C5_scoping_injection (str "SELECT a FROM tbl AS x WHERE a > 1 LIMIT 5") (by decide)⟩

/-- C8: whenever `generate_sql` reaches the generation loop (analytics intent,
tenant-policy check passed, no cache hit), the loop makes at most 2
text-generation backend attempts (so at most one repair), and the result's
confidence is `high` if the first attempt's candidate passes the Guard,
`medium` if only the second attempt's candidate passes, and `low` — with no
SQL — if no attempt succeeds. -/
theorem C8_generation_loop_confidence (st : ActiveState) (env : GenEnv) (now : Nat)
    (cache : SqlCache) (query dataset_id : Str) (dataset_version : Nat)
    (plugin_config_hash prompt_version : Str)
    (hintent : classify_intent query = str "analytics_query")
    (hpolicy : (st.plugin.validate_question query).1 = true)
    (hmiss : (cache_get now cache (genCacheKey st env query dataset_id dataset_version
      plugin_config_hash prompt_version)).1 = none) :
    ∃ r c', generate_sql st env now cache query dataset_id dataset_version
        plugin_config_hash prompt_version = .ok (r, c') ∧
      (genLoopRun st env).attempts ≤ 2 ∧ r.repairs ≤ 1 ∧
      (attemptPasses st env 1 → r.confidence = str "high") ∧
      (¬ attemptPasses st env 1 → attemptPasses st env 2 → r.confidence = str "medium") ∧
      (¬ attemptPasses st env 1 → ¬ attemptPasses st env 2 →
        r.confidence = str "low" ∧ r.sql = none) := by
  obtain ⟨vr, hvq⟩ : ∃ vr, st.plugin.validate_question query = (true, vr) :=
    ⟨(st.plugin.validate_question query).2, by rw [← hpolicy]⟩
  obtain ⟨c1, hcg⟩ : ∃ c1, cache_get now cache (genCacheKey st env query dataset_id
      dataset_version plugin_config_hash prompt_version) = (none, c1) :=
    ⟨(cache_get now cache (genCacheKey st env query dataset_id dataset_version
      plugin_config_hash prompt_version)).2, by rw [← hmiss]⟩
  have h1 : ¬ (str "analytics_query" = str "unsupported") := by decide
  have h2 : ¬ (str "analytics_query" = str "needs_clarification") := by decide
  simp only [generate_sql, hintent, if_neg h1, if_neg h2, hvq, hcg]
  rw [show genLoop st env 2 { attempts := 0, lastError := none, response := none, sql := none }
    = genLoopRun st env from rfl]
  cases hsql : (genLoopRun st env).sql with
  | some s =>
    refine ⟨_, _, rfl, genLoopRun_attempts_le st env, ?_, ?_, ?_, ?_⟩
    · have h := genLoopRun_attempts_le st env
      show (genLoopRun st env).attempts - 1 ≤ 1
      omega
    · intro hp
      obtain ⟨ha, _⟩ := genLoopRun_pass1 st env hp
      simp [ha]
    · intro hn1 hp2
      obtain ⟨ha, _⟩ := genLoopRun_pass2 st env hn1 hp2
      simp [ha]
    · intro hn1 hn2
      obtain ⟨_, hnone⟩ := genLoopRun_fail st env hn1 hn2
      rw [hsql] at hnone
      cases hnone
  | none =>
    refine ⟨_, _, rfl, genLoopRun_attempts_le st env, ?_, ?_, ?_, ?_⟩
    · have h := genLoopRun_attempts_le st env
      show (genLoopRun st env).attempts - 1 ≤ 1
      omega
    · intro hp
      obtain ⟨_, hs⟩ := genLoopRun_pass1 st env hp
      rw [hsql] at hs
      simp at hs
    · intro hn1 hp2
      obtain ⟨_, hs⟩ := genLoopRun_pass2 st env hn1 hp2
      rw [hsql] at hs
      simp at hs
    · intro _ _
      exact ⟨by simp, rfl⟩

/-- A concrete tenant state for exercising `generate_sql`. -/
def st8 : ActiveState :=
  { plugin := { name := str "p", allowedTables := [str "t"], allowedColumns := [str "a"],
                forbiddenTopics := [], primaryTimeColumn := none, maxDateRangeDays := none },
    guard := { allowed_tables := [str "t"], allowed_columns := [str "a"] } }

/-- A backend that never answers. -/
def env8 : GenEnv := { llm := fun _ => none, model := str "m" }

theorem C8_witness :
    ∃ r c', generate_sql st8 env8 0 [] (str "show sum of amount") [] 0 [] (str "v2")
        = .ok (r, c') ∧
      (genLoopRun st8 env8).attempts ≤ 2 ∧ r.repairs ≤ 1 ∧
      (attemptPasses st8 env8 1 → r.confidence = str "high") ∧
      (¬ attemptPasses st8 env8 1 → attemptPasses st8 env8 2 → r.confidence = str "medium") ∧
      (¬ attemptPasses st8 env8 1 → ¬ attemptPasses st8 env8 2 →
        r.confidence = str "low" ∧ r.sql = none) :=
  C8_generation_loop_confidence st8 env8 0 [] (str "show sum of amount") [] 0 [] (str "v2")
    (by decide) (by decide) (by decide)

theorem cache_get_snd_sub (now : Nat) (c : SqlCache) (k : CacheKey) :
    ∀ kv, kv ∈ (cache_get now c k).2 → kv ∈ c := by
  intro kv hkv
  unfold cache_get at hkv
  split at hkv
  · exact hkv
  · split at hkv
    · exact List.mem_of_mem_filter hkv
    · exact hkv

theorem cache_get_some (now : Nat) (c : SqlCache) (k : CacheKey) (e : CacheEntry) (c' : SqlCache)
    (h : cache_get now c k = (some e, c')) : ∃ kv, kv ∈ c ∧ kv.2.2 = e := by
  unfold cache_get at h
  split at h
  · simp at h
  · rename_i kv0 hf
    split at h
    · simp at h
    · simp only [Prod.mk.injEq, Option.some.injEq] at h
      exact ⟨kv0, List.mem_of_find?_eq_some hf, h.1⟩

theorem WFCache_cache_set (g : SQLGuard) (now : Nat) (c : SqlCache) (k : CacheKey)
    (v : CacheEntry) (ttl : Nat) (hc : WFCache g c) (hv : g.validate v.sql = .ok ()) :
    WFCache g (cache_set now c k v ttl) := by
  intro kv hkv
  unfold cache_set at hkv
  split at hkv
  · obtain ⟨kv0, hkv0, hmap⟩ := List.mem_map.1 hkv
    by_cases hk : kv0.1 = k
    · rw [if_pos hk] at hmap
      rw [← hmap]
      exact hv
    · rw [if_neg hk] at hmap
      rw [← hmap]
      exact hc kv0 hkv0
  · rcases List.mem_append.1 hkv with hmem | hmem
    · exact hc kv hmem
    · have hkveq : kv = (k, now + ttl, v) := List.mem_singleton.1 hmem
      rw [hkveq]
      exact hv

theorem genLoop_sql_ok (st : ActiveState) (env : GenEnv) :
    ∀ (fuel : Nat) (r : GenLoopState),
      (∀ s, r.sql = some s → st.guard.validate s = .ok ()) →
      ∀ s, (genLoop st env fuel r).sql = some s → st.guard.validate s = .ok () := by
  intro fuel
  induction fuel with
  | zero => intro r hr; exact hr
  | succ n ih =>
    intro r hr s hs
    simp only [genLoop] at hs
    cases henv : env.llm (r.attempts + 1) with
    | none =>
      simp only [henv] at hs
      exact ih { attempts := r.attempts + 1, lastError := some (str "llm_unavailable"), response := none, sql := r.sql } (fun s' hs' => hr s' hs') s hs
    | some resp =>
      simp only [henv] at hs
      cases hval : st.guard.validate (candidateOf st resp) with
      | ok u =>
        cases u
        simp only [hval, Option.some.injEq] at hs
        rw [← hs]
        exact hval
      | error er =>
        simp only [hval] at hs
        exact ih { attempts := r.attempts + 1, lastError := some (guardErrorMessage er), response := some resp, sql := r.sql } (fun s' hs' => hr s' hs') s hs

/-- C1: for every call to `generate_sql` made with a well-formed cache (every
stored entry passed Guard validation when stored), the returned
`SQLGenerationResult` has a non-`none` `sql` field only if that SQL passes
`SQLGuard.validate` — either validated inside this call's generation loop, or
validated at the time the returned cache entry was stored — and the updated
cache store is again well-formed. -/
theorem C1_sql_only_if_validated (st : ActiveState) (env : GenEnv) (now : Nat)
    (cache : SqlCache) (query dataset_id : Str) (dataset_version : Nat)
    (plugin_config_hash prompt_version : Str)
    (hwf : WFCache st.guard cache)
    (r : SQLGenerationResult) (c' : SqlCache)
    (heq : generate_sql st env now cache query dataset_id dataset_version
      plugin_config_hash prompt_version = .ok (r, c')) :
    (∀ s, r.sql = some s → st.guard.validate s = .ok ()) ∧ WFCache st.guard c' := by
  simp only [generate_sql] at heq
  split at heq
  · simp only [Except.ok.injEq, Prod.mk.injEq] at heq
    obtain ⟨h1, h2⟩ := heq
    subst h1
    subst h2
    exact ⟨fun s hs => by simp at hs, hwf⟩
  · split at heq
    · simp only [Except.ok.injEq, Prod.mk.injEq] at heq
      obtain ⟨h1, h2⟩ := heq
      subst h1
      subst h2
      exact ⟨fun s hs => by simp at hs, hwf⟩
    · split at heq
      · simp at heq
      · split at heq
        · rename_i cached cache1 hget
          simp only [Except.ok.injEq, Prod.mk.injEq] at heq
          obtain ⟨h1, h2⟩ := heq
          subst h1
          subst h2
          obtain ⟨kv, hkv, hkve⟩ := cache_get_some _ _ _ _ _ hget
          constructor
          · intro s hs
            simp only [Option.some.injEq] at hs
            have hv := hwf kv hkv
            rw [hkve] at hv
            rw [← hs]
            exact hv
          · intro kv2 hkv2
            refine hwf kv2 (cache_get_snd_sub now cache (genCacheKey st env query dataset_id dataset_version plugin_config_hash prompt_version) kv2 ?_)
            rw [congrArg Prod.snd hget]
            exact hkv2
        · rename_i cache1 hget
          split at heq
          · rename_i s0 hsql
            simp only [Except.ok.injEq, Prod.mk.injEq] at heq
            obtain ⟨h1, h2⟩ := heq
            subst h1
            subst h2
            constructor
            · intro s hs
              exact genLoop_sql_ok st env 2 _ (fun s1 hs1 => by simp at hs1) s hs
            · refine WFCache_cache_set st.guard now cache1 _ _ _ ?_ ?_
              · intro kv hkv
                refine hwf kv (cache_get_snd_sub now cache (genCacheKey st env query dataset_id dataset_version plugin_config_hash prompt_version) kv ?_)
                rw [congrArg Prod.snd hget]
                exact hkv
              · exact genLoop_sql_ok st env 2 _ (fun s1 hs1 => by simp at hs1) s0 hsql
          · rename_i hsql
            simp only [Except.ok.injEq, Prod.mk.injEq] at heq
            obtain ⟨h1, h2⟩ := heq
            subst h1
            subst h2
            constructor
            · intro s hs
              have h3 : (genLoop st env 2 { attempts := 0, lastError := none, response := none, sql := none }).sql = some s := hs
              rw [hsql] at h3
              cases h3
            · intro kv hkv
              refine hwf kv (cache_get_snd_sub now cache (genCacheKey st env query dataset_id dataset_version plugin_config_hash prompt_version) kv ?_)
              rw [congrArg Prod.snd hget]
              exact hkv

/-- The result `generate_sql` computes for `st8`/`env8` on an empty cache: the
backend never answers, so generation fails with `llm_unavailable`. -/
def r1w : SQLGenerationResult :=
  { sql := none, answer_type := str "text", assumptions := [], confidence := str "low",
    intent := str "analytics_query", repairs := 1, model_name := none,
    failure_reason := some (str "llm_unavailable"), cache_hit := false,
    chart_hint := str "none", summary := [] }

theorem C1_witness :
    (∀ s, r1w.sql = some s → st8.guard.validate s = .ok ()) ∧ WFCache st8.guard [] :=
  C1_sql_only_if_validated st8 env8 0 [] (str "show sum of amount") [] 0 [] (str "v2")
    (fun kv hkv => absurd hkv (List.not_mem_nil kv)) r1w [] (by decide)

/-- The per-step effect of the `sql_generation` `TypeError` on the step list:
the raising step is marked failed with the error message, others unchanged. -/
def failSgMap (o : Nat) : PlanStep → PlanStep := fun s =>
  if s.order = o then { s with status := .failed, error := some typeErrorMsg } else s

theorem runLoop_cons_step (env : RunEnv) (cfg : RunConfig) (step : PlanStep)
    (rest : List PlanStep) (st : LoopSt) (hb : st.executed < cfg.max_steps)
    (hnb : ¬ step.status = .blocked) :
    runLoop env cfg (step :: rest) st = execStep env cfg step st (runLoop env cfg rest) := by
  rw [runLoop, if_neg (by omega), if_neg hnb]

theorem execStep_exn (env : RunEnv) (cfg : RunConfig) (step : PlanStep)
    (st : LoopSt) (k : LoopSt → LoopSt) (msg : Str)
    (hd : dispatch env cfg.auto_approve st.goal st.so step = .exn msg) :
    execStep env cfg step st k =
      { st with
        steps := updateStep (setStatus st.steps step.order .running) step.order
          (fun s => { s with status := .failed, error := some msg }),
        goal := { st.goal with status := .failed } } := by
  simp only [execStep, hd]

theorem setStatus_update_fail (steps : List PlanStep) (o : Nat) :
    updateStep (setStatus steps o .running) o
      (fun s => { s with status := .failed, error := some typeErrorMsg }) =
    steps.map (failSgMap o) := by
  unfold updateStep setStatus failSgMap
  rw [List.map_map]
  apply List.map_congr_left
  intro s _
  by_cases h : s.order = o
  · simp [h]
  · simp [h]

/-- C2: for every goal whose plan reaches a pending `sql_generation` step (the
steps before it are not pending or blocked, and the step budget is positive),
executing that step raises an exception — `_run_step_sql_generation` passes
keyword arguments (`learning_context`, `use_cache`) that `generate_sql`'s
signature does not accept, a `TypeError` — so the step is marked `failed` with
that message, the goal is marked `failed`, every other step is left unchanged,
and the run's executed-step count is 0: no later step of the run executes. -/
theorem C2_sql_generation_step_raises (env : RunEnv) (cfg : RunConfig) (gs : GoalState)
    (done rest : List PlanStep) (sg : PlanStep)
    (hsteps : gs.steps = done ++ sg :: rest)
    (hdone : ∀ s ∈ done, ¬ s.status = .pending ∧ ¬ s.status = .blocked)
    (htool : sg.tool = str "sql_generation")
    (hpend : sg.status = .pending)
    (hbudget : 0 < cfg.max_steps) :
    sqlGenerationCallRaisesTypeError = true ∧
    (execute_goal env cfg gs).1.goal.status = .failed ∧
    (execute_goal env cfg gs).1.steps = gs.steps.map (failSgMap sg.order) ∧
    (execute_goal env cfg gs).2 = 0 := by
  have hsnap : gs.steps.filter (fun s => s.status = .pending || s.status = .blocked) =
      sg :: rest.filter (fun s => s.status = .pending || s.status = .blocked) := by
    rw [hsteps, List.filter_append]
    have hd : done.filter (fun s => s.status = .pending || s.status = .blocked) = [] := by
      rw [List.filter_eq_nil_iff]
      intro s hs
      obtain ⟨h1, h2⟩ := hdone s hs
      simp [h1, h2]
    rw [hd, List.nil_append, List.filter_cons_of_pos (by simp [hpend])]
  have hd : ∀ (g : Goal) (so : List (Str × StepOut)),
      dispatch env cfg.auto_approve g so sg = .exn typeErrorMsg := by
    intro g so
    unfold dispatch
    rw [if_pos htool, if_pos (show sqlGenerationCallRaisesTypeError = true from by decide)]
  have key : ∀ (g0so : List (Str × StepOut)),
      runLoop env cfg (sg :: rest.filter (fun s => s.status = .pending || s.status = .blocked))
        { goal := { gs.goal with status := .inProgress }, steps := gs.steps,
          so := g0so, executed := 0 } =
      { goal := { gs.goal with status := .failed },
        steps := gs.steps.map (failSgMap sg.order), so := g0so, executed := 0 } := by
    intro g0so
    rw [runLoop_cons_step env cfg sg _ _ (by simpa using hbudget) (by simp [hpend])]
    rw [execStep_exn env cfg sg _ _ typeErrorMsg (hd _ _)]
    rw [setStatus_update_fail]
  have hnotall : ¬ ((gs.steps.map (failSgMap sg.order)).all
      (fun s => s.status = .completed || s.status = .skipped) = true) := by
    intro hall
    rw [List.all_eq_true] at hall
    have hmem : failSgMap sg.order sg ∈ gs.steps.map (failSgMap sg.order) :=
      List.mem_map_of_mem _ (by rw [hsteps]; exact List.mem_append_right _ (List.mem_cons_self _ _))
    have hp := hall _ hmem
    simp [failSgMap] at hp
  refine ⟨by decide, ?_, ?_, ?_⟩
  · simp only [execute_goal, hsnap]
    rw [key _]
    simp only [finalizeGoal]
    rw [if_neg hnotall, if_neg (by simp)]
  · simp only [execute_goal, hsnap]
    rw [key _]
  · simp only [execute_goal, hsnap]
    rw [key _]

/-- A one-step plan holding only a pending `sql_generation` step. -/
def sg2 : PlanStep :=
  { order := 1, title := str "Generate SQL", description := str "", tool := str "sql_generation",
    status := .pending, requiresApproval := false, output := none, error := none }

def gs2 : GoalState :=
  { goal := { status := .opened, approvalToken := none, requiresHumanApproval := false,
              stepOutputs := [], focusQuestion := str "q", goalText := str "g",
              datasetId := none, resultSummary := none },
    steps := [sg2] }

def env2 : RunEnv := { outcome := fun _ => .ok {}, token := fun _ => str "tok" }

def cfg2 : RunConfig := { auto_approve := false, max_steps := 10, approval_token := none }

theorem C2_witness :
    sqlGenerationCallRaisesTypeError = true ∧
    (execute_goal env2 cfg2 gs2).1.goal.status = .failed ∧
    (execute_goal env2 cfg2 gs2).1.steps = gs2.steps.map (failSgMap sg2.order) ∧
    (execute_goal env2 cfg2 gs2).2 = 0 :=
  C2_sql_generation_step_raises env2 cfg2 gs2 [] [] sg2 rfl
    (fun s hs => absurd hs (List.not_mem_nil s)) rfl rfl (by decide)

theorem run_step_sql_execution_ok (env : RunEnv) (sql : Str) (ds : Option Str)
    (ap : Bool) (o : Nat) (o0 : StepOut)
    (hrisky : (is_risky_sql sql && !ap) = false)
    (henf : ds = none ∨ ∃ u, SQLGuard.enforce_dataset_filter sql (str "dataset_id") = .ok u)
    (henv : env.outcome o = .ok o0) :
    run_step_sql_execution env sql ds ap o =
      .ok { o0 with requiresApproval := false, approvalToken := none } := by
  unfold run_step_sql_execution
  rw [if_neg (by simp [hrisky])]
  cases ds with
  | none => simp [henv]
  | some d =>
    rcases henf with h | ⟨u, hu⟩
    · simp at h
    · simp [hu, henv]

theorem dispatch_sql_execution_ok (env : RunEnv) (ap : Bool) (g : Goal)
    (so : List (Str × StepOut)) (step : PlanStep) (sql : Str)
    (htool : step.tool = str "sql_execution")
    (hso : soSql so = some sql) (hne : ¬ sql = []) :
    dispatch env ap g so step = run_step_sql_execution env sql g.datasetId ap step.order := by
  unfold dispatch
  rw [if_neg (show ¬ step.tool = str "sql_generation" from by rw [htool]; decide)]
  rw [if_neg (show ¬ step.tool = str "sql_verifier" from by rw [htool]; decide)]
  rw [if_pos htool]
  simp only [hso]
  rw [if_neg hne]

theorem setStatus2_update_complete (steps : List PlanStep) (o : Nat) (out : StepOut) :
    updateStep (setStatus (setStatus steps o .pending) o .running) o
      (fun s => { s with status := .completed, output := some out }) =
    steps.map (fun s => if s.order = o then { s with status := .completed, output := some out } else s) := by
  unfold updateStep setStatus
  rw [List.map_map, List.map_map]
  apply List.map_congr_left
  intro s _
  by_cases h : s.order = o
  · simp [h]
  · simp [h]

theorem mem_zipWith_imp {α β γ : Type} {f : α → β → γ} :
    ∀ {l1 : List α} {l2 : List β} {c : γ}, c ∈ List.zipWith f l1 l2 →
      ∃ a b, a ∈ l1 ∧ b ∈ l2 ∧ c = f a b := by
  intro l1
  induction l1 with
  | nil => intro l2 c h; simp at h
  | cons a t ih =>
    intro l2 c h
    cases l2 with
    | nil => simp at h
    | cons b t2 =>
      rw [List.zipWith_cons_cons] at h
      rcases List.mem_cons.1 h with rfl | h2
      · exact ⟨a, b, List.mem_cons_self _ _, List.mem_cons_self _ _, rfl⟩
      · obtain ⟨x, y, hx, hy, rfl⟩ := ih h2
        exact ⟨x, y, List.mem_cons_of_mem _ hx, List.mem_cons_of_mem _ hy, rfl⟩

theorem find?_map_keyUpdate (key k2 : Str) (out : StepOut) (hk : ¬ key = k2) :
    ∀ (so : List (Str × StepOut)),
      (so.map (fun kv => if kv.1 = key then (key, out) else kv)).find?
        (fun kv => kv.1 = k2) = so.find? (fun kv => kv.1 = k2) := by
  intro so
  induction so with
  | nil => rfl
  | cons kv rest ih =>
    rw [List.map_cons]
    by_cases h : kv.1 = key
    · rw [if_pos h]
      rw [List.find?_cons_of_neg _ (by simp [hk]), List.find?_cons_of_neg _ (by simp [h ▸ hk]), ih]
    · rw [if_neg h]
      by_cases hp : kv.1 = k2
      · rw [List.find?_cons_of_pos _ (by simp [hp]), List.find?_cons_of_pos _ (by simp [hp])]
      · rw [List.find?_cons_of_neg _ (by simp [hp]), List.find?_cons_of_neg _ (by simp [hp]), ih]

theorem find?_soUpdate_ne (so : List (Str × StepOut)) (key k2 : Str) (out : StepOut)
    (hk : ¬ key = k2) :
    (soUpdate so key out).find? (fun kv => kv.1 = k2) = so.find? (fun kv => kv.1 = k2) := by
  unfold soUpdate
  split
  · exact find?_map_keyUpdate key k2 out hk so
  · rw [List.find?_append]
    cases hf : so.find? (fun kv => kv.1 = k2) with
    | some kv => rfl
    | none => simp [hk]

theorem soSql_soUpdate_ne (so : List (Str × StepOut)) (key : Str) (out : StepOut)
    (hk : ¬ key = str "sql_generation") :
    soSql (soUpdate so key out) = soSql so := by
  unfold soSql
  rw [find?_soUpdate_ne so key (str "sql_generation") out hk]

theorem finalizeGoal_approvalToken (q : Str) (st : LoopSt) :
    (finalizeGoal q st).approvalToken = st.goal.approvalToken := by
  unfold finalizeGoal
  split
  · rfl
  · dsimp only
    split
    · rfl
    · rfl

theorem finalizeGoal_stepOutputs (q : Str) (st : LoopSt) :
    (finalizeGoal q st).stepOutputs = st.so := by
  unfold finalizeGoal
  split
  · rfl
  · dsimp only

/-- The strengthened reachability invariant behind the approval-token claim:
no approval token is stored, no generated SQL is in the working memory, and no
step is blocked. -/
def NoTokenInv (gs : GoalState) : Prop :=
  gs.goal.approvalToken = none ∧
  soSql gs.goal.stepOutputs = none ∧
  ∀ s ∈ gs.steps, ¬ s.status = .blocked

theorem runLoop_no_block (env : RunEnv) (cfg : RunConfig) :
    ∀ (snap : List PlanStep), (∀ s ∈ snap, ¬ s.status = .blocked) →
    ∀ (st : LoopSt),
      st.goal.approvalToken = none →
      soSql st.so = none →
      (∀ s ∈ st.steps, ¬ s.status = .blocked) →
      (runLoop env cfg snap st).goal.approvalToken = none ∧
      soSql (runLoop env cfg snap st).so = none ∧
      (∀ s ∈ (runLoop env cfg snap st).steps, ¬ s.status = .blocked) := by
  intro snap
  induction snap with
  | nil => intro _ st h1 h2 h3; exact ⟨h1, h2, h3⟩
  | cons step rest ih =>
    intro hsnap st h1 h2 h3
    rw [runLoop]
    by_cases hb : st.executed ≥ cfg.max_steps
    · rw [if_pos hb]; exact ⟨h1, h2, h3⟩
    · rw [if_neg hb, if_neg (hsnap step (List.mem_cons_self _ _))]
      cases hdisp : dispatch env cfg.auto_approve st.goal st.so step with
      | exn msg =>
        simp only [execStep, hdisp]
        refine ⟨h1, h2, ?_⟩
        intro s hs
        unfold updateStep setStatus at hs
        rw [List.map_map] at hs
        obtain ⟨a, ha, rfl⟩ := List.mem_map.1 hs
        by_cases h : a.order = step.order
        · simp [h]
        · simp only [Function.comp]
          rw [if_neg h, if_neg h]
          exact h3 a ha
      | ok out =>
        by_cases hgen : step.tool = str "sql_generation"
        · exfalso
          unfold dispatch at hdisp
          rw [if_pos hgen, if_pos (show sqlGenerationCallRaisesTypeError = true from by decide)] at hdisp
          simp at hdisp
        · by_cases hver : step.tool = str "sql_verifier"
          · exfalso
            unfold dispatch at hdisp
            rw [if_neg hgen, if_pos hver] at hdisp
            rw [h2] at hdisp
            simp at hdisp
          · by_cases hexe : step.tool = str "sql_execution"
            · exfalso
              unfold dispatch at hdisp
              rw [if_neg hgen, if_neg hver, if_pos hexe] at hdisp
              rw [h2] at hdisp
              simp at hdisp
            · simp only [execStep, hdisp]
              rw [if_neg hver]
              rw [if_neg (show ¬ ((step.tool = str "sql_execution" : Bool) && out.requiresApproval) = true
                from by rw [decide_eq_false hexe]; simp)]
              refine ih (fun s hs => hsnap s (List.mem_cons_of_mem _ hs)) _ h1 ?_ ?_
              · rw [soSql_soUpdate_ne st.so step.tool out hgen]
                exact h2
              · intro s hs
                unfold updateStep setStatus at hs
                rw [List.map_map] at hs
                obtain ⟨a, ha, rfl⟩ := List.mem_map.1 hs
                by_cases h : a.order = step.order
                · simp [h]
                · simp only [Function.comp]
                  rw [if_neg h, if_neg h]
                  exact h3 a ha

theorem create_goal_no_token (plannerText : Option Str) (goal_text : Str)
    (dataset_id : Option Str) :
    NoTokenInv (create_goal_with_plan plannerText goal_text dataset_id) := by
  refine ⟨rfl, rfl, ?_⟩
  intro s hs
  obtain ⟨i, item, _, _, rfl⟩ := mem_zipWith_imp hs
  simp

theorem execute_goal_no_token (env : RunEnv) (cfg : RunConfig) (gs : GoalState)
    (h : NoTokenInv gs) : NoTokenInv (execute_goal env cfg gs).1 := by
  obtain ⟨h1, h2, h3⟩ := h
  have hsnap : ∀ s ∈ gs.steps.filter (fun s => s.status = .pending || s.status = .blocked),
      ¬ s.status = .blocked := fun s hs => h3 s (List.mem_of_mem_filter hs)
  have hrun := runLoop_no_block env cfg
    (gs.steps.filter (fun s => s.status = .pending || s.status = .blocked)) hsnap
    { goal := { gs.goal with status := .inProgress }, steps := gs.steps,
      so := gs.goal.stepOutputs, executed := 0 } h1 h2 h3
  obtain ⟨k1, k2, k3⟩ := hrun
  refine ⟨?_, ?_, ?_⟩
  · show (finalizeGoal _ _).approvalToken = none
    rw [finalizeGoal_approvalToken]
    exact k1
  · show soSql (finalizeGoal _ _).stepOutputs = none
    rw [finalizeGoal_stepOutputs]
    exact k2
  · exact k3

/-- C7: in every state reachable from goal creation via `create_goal_with_plan`
followed by any sequence of `execute_goal` runs, the goal's `approval_token` is
non-null if and only if some plan step has status `blocked` with
`requires_approval` set.  (In this program both sides are always false: the
blocking branch requires generated SQL in the working memory, which never
appears because the `sql_generation` handler call always raises.) -/
theorem C7_approval_token_iff_blocked (gs : GoalState) (h : Reach gs) :
    (¬ gs.goal.approvalToken = none ↔
      ∃ s ∈ gs.steps, s.status = .blocked ∧ s.requiresApproval = true) := by
  have hinv : NoTokenInv gs := by
    induction h with
    | created p g d => exact create_goal_no_token p g d
    | step env cfg hr ih => exact execute_goal_no_token env cfg _ ih
  obtain ⟨h1, _, h3⟩ := hinv
  constructor
  · intro hne
    exact absurd h1 hne
  · rintro ⟨s, hs, hb, _⟩
    exact absurd hb (h3 s hs)

theorem C7_witness :
    ¬ (create_goal_with_plan none (str "revenue last 7 days") none).goal.approvalToken = none ↔
      ∃ s ∈ (create_goal_with_plan none (str "revenue last 7 days") none).steps,
        s.status = .blocked ∧ s.requiresApproval = true :=
  C7_approval_token_iff_blocked (create_goal_with_plan none (str "revenue last 7 days") none)
    (Reach.created none (str "revenue last 7 days") none)

theorem finalizeGoal_status_completed (q : Str) (st : LoopSt)
    (h : (st.steps.all (fun s => s.status = .completed || s.status = .skipped)) = true) :
    (finalizeGoal q st).status = .completed := by
  unfold finalizeGoal
  dsimp only
  rw [if_pos h]

theorem finalizeGoal_requiresHumanApproval (q : Str) (st : LoopSt) :
    (finalizeGoal q st).requiresHumanApproval = st.goal.requiresHumanApproval := by
  unfold finalizeGoal
  split
  · rfl
  · dsimp only
    split
    · rfl
    · rfl

/-- Running the loop over a snapshot tail of pending steps whose tools are
outside the three SQL-special cases and whose external calls return: the goal
row is untouched, every snapshot step is executed, and every step row that was
finished or covered by the tail ends `completed` or `skipped`. -/
theorem runLoop_benign_ok (env : RunEnv) (cfg : RunConfig) :
    ∀ (rest : List PlanStep) (st : LoopSt),
      (∀ s ∈ rest, s.status = .pending ∧ ¬ s.tool = str "sql_generation" ∧
        ¬ s.tool = str "sql_verifier" ∧ ¬ s.tool = str "sql_execution" ∧
        ∃ o, env.outcome s.order = .ok o) →
      st.executed + rest.length ≤ cfg.max_steps →
      (∀ s ∈ st.steps, s.status = .completed ∨ s.status = .skipped ∨
        ∃ r, r ∈ rest ∧ r.order = s.order) →
      (runLoop env cfg rest st).goal = st.goal ∧
      (runLoop env cfg rest st).executed = st.executed + rest.length ∧
      (∀ s ∈ (runLoop env cfg rest st).steps,
        s.status = .completed ∨ s.status = .skipped) := by
  intro rest
  induction rest with
  | nil =>
    intro st _ _ hc
    refine ⟨rfl, rfl, ?_⟩
    intro s hs
    rcases hc s hs with h | h | ⟨r, hr, _⟩
    · exact Or.inl h
    · exact Or.inr h
    · exact absurd hr (List.not_mem_nil r)
  | cons h t ih =>
    intro st hben hbud hc
    obtain ⟨hp, hg, hv, hx, o, ho⟩ := hben h (List.mem_cons_self _ _)
    have hL : (h :: t).length = t.length + 1 := rfl
    rw [runLoop]
    rw [if_neg (show ¬ st.executed ≥ cfg.max_steps from by omega)]
    rw [if_neg (show ¬ h.status = .blocked from by rw [hp]; decide)]
    obtain ⟨o2, hdisp⟩ : ∃ o2, dispatch env cfg.auto_approve st.goal st.so h = .ok o2 := by
      unfold dispatch
      rw [if_neg hg, if_neg hv, if_neg hx]
      by_cases hcat : (TOOL_CATALOG.any (fun kv => kv.1 = h.tool)) = true
      · rw [if_pos hcat]; exact ⟨o, ho⟩
      · rw [if_neg hcat]; exact ⟨_, rfl⟩
    simp only [execStep, hdisp]
    rw [if_neg hv]
    rw [if_neg (show ¬ ((h.tool = str "sql_execution" : Bool) && o2.requiresApproval) = true
      from by rw [decide_eq_false hx]; simp)]
    have hres := ih
      { goal := st.goal,
        steps := updateStep (setStatus st.steps h.order .running) h.order
          (fun s => { s with status := .completed, output := some o2 }),
        so := soUpdate (st.so) h.tool o2,
        executed := st.executed + 1 }
      (fun s hs => hben s (List.mem_cons_of_mem _ hs))
      (by simp only []; omega)
      (by
        intro s hs
        unfold updateStep setStatus at hs
        rw [List.map_map] at hs
        obtain ⟨a, ha, rfl⟩ := List.mem_map.1 hs
        by_cases hao : a.order = h.order
        · simp [hao]
        · simp only [Function.comp]
          rw [if_neg hao, if_neg hao]
          rcases hc a ha with h1 | h1 | ⟨r, hr, hro⟩
          · exact Or.inl h1
          · exact Or.inr (Or.inl h1)
          · rcases List.mem_cons.1 hr with rfl | hrt
            · exact absurd hro.symm hao
            · exact Or.inr (Or.inr ⟨r, hrt, hro⟩))
    obtain ⟨k1, k2, k3⟩ := hres
    refine ⟨k1, ?_, k3⟩
    rw [k2]
    simp only [hL]
    omega

/-- C3: for every goal in `waiting_approval` whose steps are finished ones,
then a blocked `sql_execution` step, then pending follow-up steps (as the Plan
Builder lays them out: `anomaly_scan`/`summary_writer` class tools, outside
the three SQL-special handlers), running `execute_goal` with the approval
token equal to the goal's stored (non-empty) token resets the blocked step to
pending and clears the goal's approval token and approval flag, and — when
every remaining handler succeeds (the generated SQL is present and non-empty,
the risky check passes, scoping succeeds, the database call and each follow-up
call return, within the step budget) — the run ends with the goal status
`completed`, every step `completed` or `skipped`, and the blocked step plus
all follow-up steps executed. -/
theorem C3_approval_resume (env : RunEnv) (cfg : RunConfig) (gs : GoalState)
    (done rest : List PlanStep) (bl : PlanStep) (tok sql : Str) (o0 : StepOut)
    (hsteps : gs.steps = done ++ bl :: rest)
    (hdone : ∀ s ∈ done, s.status = .completed ∨ s.status = .skipped)
    (hbl : bl.status = .blocked)
    (htool : bl.tool = str "sql_execution")
    (hgstat : gs.goal.status = .waitingApproval)
    (hstored : gs.goal.approvalToken = some tok)
    (htok : ¬ tok = [])
    (hsupplied : cfg.approval_token = some tok)
    (hsql : soSql gs.goal.stepOutputs = some sql)
    (hsqlne : ¬ sql = [])
    (hrisky : (is_risky_sql sql && !cfg.auto_approve) = false)
    (henf : gs.goal.datasetId = none ∨
      ∃ u, SQLGuard.enforce_dataset_filter sql (str "dataset_id") = .ok u)
    (henv : env.outcome bl.order = .ok o0)
    (hrest : ∀ s ∈ rest, s.status = .pending ∧ ¬ s.tool = str "sql_generation" ∧
      ¬ s.tool = str "sql_verifier" ∧ ¬ s.tool = str "sql_execution" ∧
      ∃ o, env.outcome s.order = .ok o)
    (hbudget : rest.length + 1 ≤ cfg.max_steps) :
    (execute_goal env cfg gs).1.goal.status = .completed ∧
    (execute_goal env cfg gs).1.goal.approvalToken = none ∧
    (execute_goal env cfg gs).1.goal.requiresHumanApproval = false ∧
    (∀ s ∈ (execute_goal env cfg gs).1.steps,
      s.status = .completed ∨ s.status = .skipped) ∧
    (execute_goal env cfg gs).2 = rest.length + 1 := by
  have hsnap : gs.steps.filter (fun s => s.status = .pending || s.status = .blocked) =
      bl :: rest := by
    rw [hsteps, List.filter_append]
    have hd : done.filter (fun s => s.status = .pending || s.status = .blocked) = [] := by
      rw [List.filter_eq_nil_iff]
      intro s hs
      rcases hdone s hs with h | h
      · simp [h]
      · simp [h]
    rw [hd, List.nil_append, List.filter_cons_of_pos (by simp [hbl])]
    rw [List.filter_eq_self.mpr (fun s hs => by simp [(hrest s hs).1])]
  have key : ∀ g0so, soSql g0so = some sql →
      runLoop env cfg (bl :: rest)
        { goal := { gs.goal with status := .inProgress }, steps := gs.steps,
          so := g0so, executed := 0 } =
      runLoop env cfg rest
        { goal := approveReset { gs.goal with status := .inProgress },
          steps := gs.steps.map (fun s => if s.order = bl.order then
            { s with status := .completed,
                     output := some { o0 with requiresApproval := false, approvalToken := none } }
            else s),
          so := soUpdate g0so bl.tool { o0 with requiresApproval := false, approvalToken := none },
          executed := 1 } := by
    intro g0so hso
    have hdisp : dispatch env cfg.auto_approve
        (approveReset { gs.goal with status := .inProgress }) g0so
        { bl with status := .pending } =
        .ok { o0 with requiresApproval := false, approvalToken := none } := by
      rw [dispatch_sql_execution_ok env cfg.auto_approve
        (approveReset { gs.goal with status := .inProgress }) g0so
        { bl with status := .pending } sql htool hso hsqlne]
      exact run_step_sql_execution_ok env sql _ cfg.auto_approve _ o0 hrisky henf henv
    have hv : ¬ bl.tool = str "sql_verifier" := by rw [htool]; decide
    rw [runLoop]
    rw [if_neg (show ¬ (0 ≥ cfg.max_steps) from by omega)]
    rw [if_pos hbl]
    rw [if_pos (show tokenMatches cfg.approval_token gs.goal.approvalToken = true from
      by simp [tokenMatches, hsupplied, hstored, htok])]
    simp only [execStep]
    rw [hdisp]
    dsimp only
    rw [if_neg hv]
    rw [if_neg (by simp)]
    rw [setStatus2_update_complete]
  have hcover : ∀ s ∈ (gs.steps.map (fun s => if s.order = bl.order then
      { s with status := .completed,
               output := some { o0 with requiresApproval := false, approvalToken := none } }
      else s)),
      s.status = .completed ∨ s.status = .skipped ∨ ∃ r, r ∈ rest ∧ r.order = s.order := by
    intro s hs
    obtain ⟨a, ha, rfl⟩ := List.mem_map.1 hs
    by_cases hao : a.order = bl.order
    · rw [if_pos hao]
      exact Or.inl rfl
    · rw [if_neg hao]
      rw [hsteps] at ha
      rcases List.mem_append.1 ha with hmem | hmem
      · rcases hdone a hmem with h | h
        · exact Or.inl h
        · exact Or.inr (Or.inl h)
      · rcases List.mem_cons.1 hmem with rfl | hmem2
        · exact absurd rfl hao
        · exact Or.inr (Or.inr ⟨a, hmem2, rfl⟩)
  have hbenign : ∀ g0so,
      (runLoop env cfg rest
        { goal := approveReset { gs.goal with status := .inProgress },
          steps := gs.steps.map (fun s => if s.order = bl.order then
            { s with status := .completed,
                     output := some { o0 with requiresApproval := false, approvalToken := none } }
            else s),
          so := soUpdate g0so bl.tool { o0 with requiresApproval := false, approvalToken := none },
          executed := 1 }).goal = approveReset { gs.goal with status := .inProgress } ∧
      (runLoop env cfg rest
        { goal := approveReset { gs.goal with status := .inProgress },
          steps := gs.steps.map (fun s => if s.order = bl.order then
            { s with status := .completed,
                     output := some { o0 with requiresApproval := false, approvalToken := none } }
            else s),
          so := soUpdate g0so bl.tool { o0 with requiresApproval := false, approvalToken := none },
          executed := 1 }).executed = 1 + rest.length ∧
      (∀ s ∈ (runLoop env cfg rest
        { goal := approveReset { gs.goal with status := .inProgress },
          steps := gs.steps.map (fun s => if s.order = bl.order then
            { s with status := .completed,
                     output := some { o0 with requiresApproval := false, approvalToken := none } }
            else s),
          so := soUpdate g0so bl.tool { o0 with requiresApproval := false, approvalToken := none },
          executed := 1 }).steps, s.status = .completed ∨ s.status = .skipped) := by
    intro g0so
    exact runLoop_benign_ok env cfg rest _ hrest (by simp only []; omega) hcover
  refine ⟨?_, ?_, ?_, ?_, ?_⟩
  · simp only [execute_goal, hsnap]
    rw [key]
    · obtain ⟨k1, k2, k3⟩ := hbenign _
      refine finalizeGoal_status_completed _ _ ?_
      rw [List.all_eq_true]
      intro x hx
      rcases k3 x hx with h | h
      · simp [h]
      · simp [h]
    · exact hsql
  · simp only [execute_goal, hsnap]
    rw [key]
    · obtain ⟨k1, k2, k3⟩ := hbenign _
      rw [finalizeGoal_approvalToken, k1]
      rfl
    · exact hsql
  · simp only [execute_goal, hsnap]
    rw [key]
    · obtain ⟨k1, k2, k3⟩ := hbenign _
      rw [finalizeGoal_requiresHumanApproval, k1]
      rfl
    · exact hsql
  · simp only [execute_goal, hsnap]
    rw [key]
    · obtain ⟨k1, k2, k3⟩ := hbenign _
      intro s hs
      exact k3 s hs
    · exact hsql
  · simp only [execute_goal, hsnap]
    rw [key]
    · obtain ⟨k1, k2, k3⟩ := hbenign _
      rw [k2]
      omega
    · exact hsql

/-- A goal waiting for approval on a blocked `sql_execution` step, with the
plan's summary step still pending after it. -/
def bl3 : PlanStep :=
  { order := 1, title := str "Execute SQL", description := str "", tool := str "sql_execution",
    status := .blocked, requiresApproval := true, output := none, error := none }

def sw3 : PlanStep :=
  { order := 2, title := str "Write analyst summary", description := str "",
    tool := str "summary_writer", status := .pending, requiresApproval := false,
    output := none, error := none }

def gs3 : GoalState :=
  { goal := { status := .waitingApproval, approvalToken := some (str "tok"),
              requiresHumanApproval := true,
              stepOutputs := [(str "sql_generation",
                { sql := some (str "select a from t where a > 0 limit 5") })],
              focusQuestion := str "q", goalText := str "g",
              datasetId := none, resultSummary := none },
    steps := [bl3, sw3] }

def env3 : RunEnv := { outcome := fun _ => .ok {}, token := fun _ => str "t2" }

def cfg3 : RunConfig :=
  { auto_approve := false, max_steps := 5, approval_token := some (str "tok") }

theorem C3_witness :
    (execute_goal env3 cfg3 gs3).1.goal.status = .completed ∧
    (execute_goal env3 cfg3 gs3).1.goal.approvalToken = none ∧
    (execute_goal env3 cfg3 gs3).1.goal.requiresHumanApproval = false ∧
    (∀ s ∈ (execute_goal env3 cfg3 gs3).1.steps,
      s.status = .completed ∨ s.status = .skipped) ∧
    (execute_goal env3 cfg3 gs3).2 = 2 :=
  C3_approval_resume env3 cfg3 gs3 [] [sw3] bl3 (str "tok")
    (str "select a from t where a > 0 limit 5") {}
    rfl (fun s hs => absurd hs (List.not_mem_nil s))
    rfl rfl rfl rfl (by decide) rfl (by decide) (by decide) (by decide) (Or.inl rfl) rfl
    (fun s hs => by
      rw [List.mem_singleton.1 hs]
      exact ⟨rfl, by decide, by decide, by decide, ⟨{}, rfl⟩⟩)
    (by decide)
